import Mathlib

/-!
Shallow embedding of `sm/certchain.c` (X.509 certificate chain validation
engine of an S/MIME agent).  External collaborators (trust agent, dirmngr
revocation responder, qualified-list lookup, external directory, signature
primitive) are modelled as deterministic oracle functions in an `Env`
record; the key database is modelled as explicit stores plus a cursor
handle; per-certificate ksba user data is an association list threaded
through the functions that mutate it.

Certificates are immutable values; `compare_certs` (bytewise image
comparison in C) is modelled as structural equality, since the DER image
determines every field.  ISO timestamps are `String`s compared with the
lexicographic string order, matching `strcmp` on the canonical sortable
isotime form.  C error codes are an inductive `Err`; the integer `-1`
sentinel used by `find_up` and `keydb_search_*` is the constructor `Err.m1`.
-/

set_option maxRecDepth 16384
set_option maxHeartbeats 2000000

namespace Certchain

/-- gpg error codes used by certchain.c, plus the `-1` sentinel (`m1`)
and `other n` for arbitrary collaborator errors. -/
inductive Err where
  | ok
  | m1
  | general
  | badCert
  | badCertChain
  | badCaCert
  | unsupportedCert
  | certTooYoung
  | missingCert
  | configuration
  | lineTooLong
  | incompleteLine
  | noPolicyMatch
  | certRevoked
  | certExpired
  | noCrlKnown
  | crlTooOld
  | notTrusted
  | notSupported
  | canceled
  | notFound
  | noData
  | noValue
  | eofErr
  | badSignature
  | other (n : Nat)
deriving DecidableEq, Repr

/-- Flags returned by the trust agent for a root certificate. -/
structure RootcaFlags where
  relax : Bool
deriving DecidableEq, Repr

/-- Authority Key Identifier of a certificate: optional keyIdentifier,
optional first issuer name from the authid name list, and the serial
number sexp (empty string models an empty `authidno`). -/
structure AKI where
  keyid : Option String
  name : Option String
  serial : String
deriving DecidableEq, Repr

/-- A certificate handle.  Fields mirror the ksba accessors used by
certchain.c.  `validity = none` models a failing
`ksba_cert_get_validity`; an empty timestamp string models a missing
not-before / not-after value.  `extEnd` is the error terminating the
extension iterator (normally `eofErr` or `noValue`).  `policies` is the
result of `ksba_cert_get_cert_policies`. -/
structure Cert where
  issuer : Option String
  subject : Option String
  serial : String
  validity : Option (String × String)
  extensions : List (String × Bool)
  extEnd : Err
  policies : Err ⊕ String
  aki : Option AKI
  ski : Option String
  isCaErr : Err
  isCaFlag : Bool
  isCaChainlen : Int
deriving DecidableEq, Repr

/-- A default certificate value (only used to give `List.getLast!` a
total type; never reached on the paths we reason about). -/
instance : Inhabited Cert :=
  ⟨⟨none, none, "", none, [], Err.ok, Sum.inl Err.noData, none, none, Err.ok, false, 0⟩⟩

/-- Per-certificate user data (`ksba_cert_set_user_data`): association
list keyed by certificate and key string; most recent entry wins. -/
def UD := List (Cert × String × List Nat)

/-- The two certificate stores behind the key database: the regular one
and the ephemeral one holding just-fetched certificates. -/
structure Stores where
  main : List Cert
  eph : List Cert
deriving DecidableEq

/-- Key-database-level state: the stores, the user-data side table and
the log of `keydb_set_cert_flags` calls (cert, value). -/
structure KState where
  stores : Stores
  ud : UD
  certFlags : List (Cert × Nat)

/-- A key database handle: ephemeral visibility flag, cursor position
into the visible list, and the certificate the cursor is positioned on
(for `keydb_get_cert`). -/
structure KH where
  ephMode : Bool
  pos : Nat
  current : Option Cert
deriving DecidableEq, Repr

/-- The certificates visible through a handle: the main store, plus the
ephemeral store when ephemeral mode is on. -/
def KH.visible (ks : KState) (kh : KH) : List Cert :=
  ks.stores.main ++ (if kh.ephMode then ks.stores.eph else [])

/-- `keydb_search_reset`. -/
def resetKH (kh : KH) : KH := { kh with pos := 0 }

/-- Scan a list from index `i`, returning the first element satisfying
`p` together with its index. -/
def findFromAux (p : Cert → Bool) : List Cert → Nat → Option (Nat × Cert)
  | [], _ => none
  | c :: cs, i => if p c then some (i, c) else findFromAux p cs (i + 1)

/-- First certificate at index ≥ `start` satisfying `p`. -/
def findFrom (p : Cert → Bool) (l : List Cert) (start : Nat) : Option (Nat × Cert) :=
  findFromAux p (l.drop start) start

/-- Stateful search shared by `keydb_search_subject` and
`keydb_search_issuer_sn`: advance the cursor to the next visible
certificate satisfying `p`; return `Err.m1` ("no more") otherwise. -/
def kdbSearch (p : Cert → Bool) (ks : KState) (kh : KH) : Err × KH :=
  match findFrom p (kh.visible ks) kh.pos with
  | some (i, c) => (Err.ok, { kh with pos := i + 1, current := some c })
  | none => (Err.m1, { kh with pos := (kh.visible ks).length })

/-- `keydb_search_subject`. -/
def keydb_search_subject (ks : KState) (kh : KH) (dn : String) : Err × KH :=
  kdbSearch (fun c => c.subject = some dn) ks kh

/-- `keydb_search_issuer_sn`. -/
def keydb_search_issuer_sn (ks : KState) (kh : KH) (s : String) (sn : String) : Err × KH :=
  kdbSearch (fun c => c.issuer = some s ∧ c.serial = sn) ks kh

/-- Look up a user-data entry. -/
def udGet (ud : UD) (c : Cert) (key : String) : Option (List Nat) :=
  match ud with
  | [] => none
  | (c', k', v) :: rest => if c' = c ∧ k' = key then some v else udGet rest c key

/-- Oracles and configuration switches consumed by certchain.c. -/
structure Env where
  no_chain_validation : Bool
  no_policy_check : Bool
  no_crl_check : Bool
  no_trusted_cert_crl_check : Bool
  ignore_expiration : Bool
  auto_issuer_key_retrieve : Bool
  policy_file_set : Bool
  policy_file_content : Option (List Char)
  use_ocsp : Bool
  current_time : String
  istrusted : Cert → Err × RootcaFlags
  marktrusted : Cert → Err
  check_cert_sig : Cert → Cert → Err
  dirmngr_isvalid : Cert → Cert → Bool → Err
  qualifiedList : Cert → Err × String
  useCert : Cert → Err
  lookup : String → Err × List Cert
  udSetErr : Cert → String → Err

/-- `ksba_cert_set_user_data`: may fail (oracle-controlled); on success
the entry is prepended (most recent wins). -/
def ud_set (env : Env) (ks : KState) (c : Cert) (key : String) (v : List Nat) :
    Err × KState :=
  if env.udSetErr c key = Err.ok then
    (Err.ok, { ks with ud := (c, key, v) :: ks.ud })
  else (env.udSetErr c key, ks)

/-- The value `VALIDITY_REVOKED` from the keybox header (symbolic). -/
def VALIDITY_REVOKED : Nat := 32

/-- NUL character, to model C string termination in raw file bytes. -/
def nulChar : Char := Char.ofNat 0

/-- The C string content of a raw byte buffer: everything before the
first NUL. -/
def cstr (l : List Char) : List Char := l.takeWhile (fun c => c ≠ nulChar)

/-- gnupg `spacep`: blank or tab. -/
def spacep (c : Char) : Bool := c = ' ' ∨ c = '\t'

/-- Byte-lexicographic strict comparison of character lists: the
`strcmp (a, b) < 0` test of the C code. -/
def charsLt : List Char → List Char → Bool
  | [], [] => false
  | [], _ :: _ => true
  | _ :: _, [] => false
  | a :: as, b :: bs => if a < b then true else if b < a then false else charsLt as bs

/-- `strcmp (a, b) < 0` on the canonical sortable isotime strings. -/
def strLt (a b : String) : Bool := charsLt a.data b.data

/-- `fgets (buf, n+1, fp)`: read at most `n` characters, stopping after
a newline; returns the characters read and the rest of the file. -/
def fgetsN : Nat → List Char → List Char × List Char
  | _, [] => ([], [])
  | 0, l => ([], l)
  | n + 1, c :: cs =>
    if c = '\n' then ([c], cs)
    else
      let r := fgetsN n cs
      (c :: r.1, r.2)

/-- First index at which `needle` occurs in `hay` (C `strstr`). -/
def strstrIdx (needle : List Char) : List Char → Option Nat
  | [] => if needle = [] then some 0 else none
  | c :: cs =>
    if needle.isPrefixOf (c :: cs) then some 0
    else (strstrIdx needle cs).map (· + 1)

/-- The key string "is_qualified". -/
def kQualified : String := "is_qualified"

/-- The key string "regtp_ca_chainlen". -/
def kRegtp : String := "regtp_ca_chainlen"

/-- The needle ":C" used to detect a critical policy entry. -/
def critNeedle : List Char := [':', 'C']

/-- First index of a byte from the C `strpbrk (s, " :\n")` set. -/
def strpbrkIdx (l : List Char) : Option Nat :=
  strstrIdxAux l 0
where
  strstrIdxAux : List Char → Nat → Option Nat
    | [], _ => none
    | c :: cs, i =>
      if c = ' ' ∨ c = ':' ∨ c = '\n' then some i else strstrIdxAux cs (i + 1)

/-- Does the allowed OID `tok` occur in the policy listing `pol` at the
start of a line and followed by `:` (the match loop over `strstr`
occurrences in `check_cert_policy`)? -/
def policyMatch (pol : List Char) (tok : List Char) : Bool :=
  (List.range (pol.length + 1)).any fun i =>
    tok.isPrefixOf (pol.drop i) ∧
    (i = 0 ∨ pol.get? (i - 1) = some '\n') ∧
    pol.get? (i + tok.length) = some ':'

/-- The verdict at EOF of the policy file (also used when the file
cannot be opened): a warning (success) without critical policies,
`NO_POLICY_MATCH` otherwise. -/
def policyEofVerdict (any_critical : Bool) : Err :=
  if ¬ any_critical then Err.ok else Err.noPolicyMatch

/-- The line-reading loop of `check_cert_policy`.  `fuel` bounds the
recursion and is set to more than the file length by the caller (each
iteration consumes at least one character, so it never runs out). -/
def policyLinesGo (pol : List Char) (any_critical : Bool) :
    Nat → List Char → Err
  | 0, _ => Err.general
  | _ + 1, [] => policyEofVerdict any_critical
  | fuel + 1, c :: cs =>
    let r := fgetsN 254 (c :: cs)
    let s := cstr r.1
    if s = [] ∨ s.getLast? ≠ some '\n' then
      if s ≠ [] then Err.lineTooLong else Err.incompleteLine
    else
      let p := s.dropWhile spacep
      if p = [] ∨ p.head? = some '\n' ∨ p.head? = some '#' then
        policyLinesGo pol any_critical fuel r.2
      else
        match strpbrkIdx p with
        | none => Err.other 99
        | some 0 => Err.configuration
        | some idx =>
          if policyMatch pol (p.take idx) then Err.ok
          else policyLinesGo pol any_critical fuel r.2

/-- `check_cert_policy`. -/
def check_cert_policy (env : Env) (cert : Cert) : Err :=
  match cert.policies with
  | Sum.inl e =>
    if e = Err.noData ∨ e = Err.noValue then Err.ok else e
  | Sum.inr policies =>
    let pol := policies.data
    let any_critical := (strstrIdx critNeedle pol).isSome
    if ¬ env.policy_file_set then
      if any_critical then Err.noPolicyMatch else Err.ok
    else
      match env.policy_file_content with
      | none =>
        if ¬ any_critical then Err.ok else Err.noPolicyMatch
      | some content =>
        policyLinesGo pol any_critical (content.length + 1) content

/-- The hardcoded known critical extension OIDs. -/
def knownOids : List String := ["2.5.29.15", "2.5.29.19", "2.5.29.32", "2.5.29.37"]

/-- `unknown_criticals`. -/
def unknown_criticals (cert : Cert) : Err :=
  let bad := cert.extensions.any fun e => e.2 ∧ ¬ knownOids.contains e.1
  if cert.extEnd ≠ Err.ok ∧ cert.extEnd ≠ Err.eofErr ∧ cert.extEnd ≠ Err.noValue then
    cert.extEnd
  else if bad then Err.unsupportedCert
  else Err.ok

/-- `gpgsm_is_root_cert`: issuer DN equals subject DN (both present). -/
def gpgsm_is_root_cert (cert : Cert) : Bool :=
  match cert.issuer, cert.subject with
  | some i, some s => i = s
  | _, _ => false

/-- `find_up_search_by_keyid`: reset, then iterate
`keydb_search_subject (issuer)` and stop at the first hit whose
subjectKeyIdentifier equals `keyid`.  The stop-at-first-match loop is
equivalent to a single search with the conjoined filter. -/
def find_up_search_by_keyid (ks : KState) (kh : KH) (issuer : String)
    (keyid : String) : Err × KH :=
  kdbSearch (fun c => c.subject = some issuer ∧ c.ski = some keyid) ks (resetKH kh)

/-- The dirmngr pattern hack in `find_up_external`: start the issuer
string at `CN=` when that component exists and is not leftmost. -/
def cnPattern (issuer : String) : String :=
  match strstrIdx ['C', 'N', '='] issuer.data with
  | some i =>
    if i ≠ 0 ∧ issuer.data.get? (i - 1) = some ',' then
      String.mk (issuer.data.drop i)
    else issuer
  | none => issuer

/-- `find_up_external`: look the issuer up at the external directory,
store every result in the ephemeral store, then re-search under
ephemeral mode (by keyid when one is given, by subject otherwise). -/
def find_up_external (env : Env) (kh : KH) (issuer : String)
    (keyid : Option String) (ks : KState) : Err × KH × KState :=
  let pattern := String.mk ('/' :: (cnPattern issuer).data)
  let lr := env.lookup pattern
  let ks1 : KState :=
    { ks with stores := { ks.stores with eph := ks.stores.eph ++ lr.2 } }
  if lr.1 ≠ Err.ok then (Err.m1, kh, ks1)
  else if lr.2 = [] then (Err.m1, kh, ks1)
  else
    let old := kh.ephMode
    let khe : KH := { kh with ephMode := true }
    let r :=
      match keyid with
      | some kid => find_up_search_by_keyid ks1 khe issuer kid
      | none => keydb_search_subject ks1 (resetKH khe) issuer
    (r.1, { r.2 with ephMode := old }, ks1)

/-- Strategy 1 of `find_up`: search by the AKI issuer name and serial,
retrying once under the ephemeral store (not in `find_next` mode). -/
def fuIssuerSn (ks : KState) (kh : KH) (s : String) (sn : String)
    (find_next : Bool) : Err × KH :=
  let r := keydb_search_issuer_sn ks kh s sn
  let kh1 := if r.1 ≠ Err.ok then resetKH r.2 else r.2
  if r.1 = Err.m1 ∧ ¬ find_next then
    let old := kh1.ephMode
    let khe : KH := { kh1 with ephMode := true }
    if ¬ old then
      let r2 := keydb_search_issuer_sn ks khe s sn
      let kh2 := if r2.1 ≠ Err.ok then resetKH r2.2 else r2.2
      (r2.1, { kh2 with ephMode := old })
    else (r.1, { khe with ephMode := old })
  else (r.1, kh1)

/-- Strategy 2 of `find_up`: search by the AKI keyIdentifier, retrying
under the ephemeral store; any failure is normalised to `-1`. -/
def fuKeyid (ks : KState) (kh : KH) (issuer : String) (kid : String) : Err × KH :=
  let r := find_up_search_by_keyid ks kh issuer kid
  let r1 :=
    if r.1 ≠ Err.ok then
      let old := r.2.ephMode
      let khe : KH := { r.2 with ephMode := true }
      if ¬ old then
        let r2 := find_up_search_by_keyid ks khe issuer kid
        (r2.1, { r2.2 with ephMode := old })
      else (r.1, { khe with ephMode := old })
    else r
  (if r1.1 ≠ Err.ok then Err.m1 else Err.ok, r1.2)

/-- The AKI-driven part of `find_up` (strategies 1–3). -/
def fuAki (env : Env) (ks : KState) (kh : KH) (a : AKI) (issuer : String)
    (find_next : Bool) : Err × KH × KState :=
  let r1 :=
    match a.name with
    | some s => if a.serial ≠ "" then fuIssuerSn ks kh s a.serial find_next else (Err.m1, kh)
    | none => (Err.m1, kh)
  let r2 :=
    if r1.1 = Err.m1 ∧ ¬ find_next then
      match a.keyid with
      | some kid => fuKeyid ks r1.2 issuer kid
      | none => r1
    else r1
  if r2.1 = Err.m1 ∧ env.auto_issuer_key_retrieve ∧ ¬ find_next then
    find_up_external env r2.2 issuer a.keyid ks
  else (r2.1, r2.2, ks)

/-- `find_up`: locate the issuing certificate for `cert` whose issuer DN
is `issuer`.  Strategies: AKI issuer+serial, AKI keyid, external lookup,
plain subject search, external lookup by DN; ephemeral/external
fallbacks are disabled in `find_next` mode. -/
def find_up (env : Env) (kh : KH) (cert : Cert) (issuer : String)
    (find_next : Bool) (ks : KState) : Err × KH × KState :=
  let r1 :=
    match cert.aki with
    | some a => fuAki env ks kh a issuer find_next
    | none => (Err.m1, kh, ks)
  let r2 :=
    if r1.1 ≠ Err.ok then
      let r := keydb_search_subject r1.2.2 r1.2.1 issuer
      (r.1, r.2, r1.2.2)
    else r1
  let r3 :=
    if r2.1 = Err.m1 ∧ ¬ find_next then
      let old := r2.2.1.ephMode
      let khe : KH := { r2.2.1 with ephMode := true }
      if ¬ old then
        let r := keydb_search_subject r2.2.2 (resetKH khe) issuer
        (r.1, ({ r.2 with ephMode := old } : KH), r2.2.2)
      else (r2.1, ({ khe with ephMode := old } : KH), r2.2.2)
    else r2
  if r3.1 = Err.m1 ∧ env.auto_issuer_key_retrieve ∧ ¬ find_next then
    find_up_external env r3.2.1 issuer none r3.2.2
  else r3

/-- `gpgsm_walk_cert_chain`: one step up the chain, on a fresh keydb
handle.  Returns `m1` at a root, `missingCert`/`general` on lookup
failures, the issuer certificate otherwise. -/
def gpgsm_walk_cert_chain (env : Env) (start : Cert) (ks : KState) :
    Err × Option Cert × KState :=
  match start.issuer, start.subject with
  | none, _ => (Err.badCert, none, ks)
  | some _, none => (Err.badCert, none, ks)
  | some issuer, some subject =>
    if issuer = subject then (Err.m1, none, ks)
    else
      let r := find_up env ⟨false, 0, none⟩ start issuer false ks
      if r.1 ≠ Err.ok then (Err.missingCert, none, r.2.2)
      else
        match r.2.1.current with
        | some c => (Err.ok, some c, r.2.2)
        | none => (Err.general, none, r.2.2)

/-- The chain walk inside `get_regtp_ca_info`: while fewer than 4 slots
are used and `gpgsm_walk_cert_chain` succeeds, push the next
certificate.  Returns the `rc` of the last walk, the visited list and
the key state.  Fuel 3 models the `depth < DIM(array)` bound. -/
def regtpLoop (env : Env) : Nat → Cert → List Cert → KState →
    Err × List Cert × KState
  | 0, _, vis, ks => (Err.ok, vis, ks)
  | fuel + 1, cur, vis, ks =>
    let r := gpgsm_walk_cert_chain env cur ks
    if r.1 = Err.ok then
      match r.2.1 with
      | some nxt => regtpLoop env fuel nxt (vis ++ [nxt]) r.2.2
      | none => (Err.general, vis, r.2.2)
    else (r.1, vis, r.2.2)

/-- `get_regtp_ca_info`.  Returns `(chainlen, is_regtp, visited, ks)`;
`visited` is a ghost output listing the certificates placed in the
4-slot array.  Note that on the `leave` path the empty marker is stored
on `cert`, which at that point is the LAST certificate of the walk. -/
def get_regtp_ca_info (env : Env) (cert : Cert) (ks : KState) :
    Int × Bool × List Cert × KState :=
  match udGet ks.ud cert kRegtp with
  | some v =>
    if v.length < 2 ∨ v.head? = some 0 then (0, false, [], ks)
    else (((v.get? 1).getD 0 : Nat), true, [], ks)
  | none =>
    let w := regtpLoop env 3 cert [cert] ks
    let vis := w.2.1
    let last := vis.getLast!
    if w.1 ≠ Err.m1 ∨ vis.length = 4 then
      let m := ud_set env w.2.2 last kRegtp [0]
      (0, false, vis, m.2)
    else
      let q := env.qualifiedList last
      if q.1 = Err.ok ∧ q.2 = "de" then
        let m1 := ud_set env w.2.2 last kRegtp [1, 1]
        let ks2 :=
          if m1.1 = Err.ok ∧ vis.length > 1 then
            (ud_set env m1.2 (vis.get! (vis.length - 2)) kRegtp [1, 0]).2
          else m1.2
        ((if vis.length > 1 then 0 else 1 : Int), true, vis, ks2)
      else
        let m := ud_set env w.2.2 last kRegtp [0]
        (0, false, vis, m.2)

/-- `allowed_ca`: accept a certificate as issuer iff basicConstraints
marks it a CA, with the RegTP classifier as fallback.  Returns the
allowed chain length as well. -/
def allowed_ca (env : Env) (cert : Cert) (ks : KState) : Err × Int × KState :=
  if cert.isCaErr ≠ Err.ok then (cert.isCaErr, 0, ks)
  else if cert.isCaFlag then (Err.ok, cert.isCaChainlen, ks)
  else
    let r := get_regtp_ca_info env cert ks
    if r.2.1 then (Err.ok, r.1, r.2.2.2)
    else (Err.badCaCert, r.1, r.2.2.2)

/-- `is_cert_still_valid`: the revocation gate.  Takes and returns the
three soft flags (`any_revoked`, `any_no_crl`, `any_crl_too_old`);
records the best-effort `keydb_set_cert_flags` persistence of
`VALIDITY_REVOKED` in the key state. -/
def is_cert_still_valid (env : Env) (subject_cert issuer_cert : Cert)
    (any_revoked any_no_crl any_crl_too_old : Bool) (ks : KState) :
    Err × Bool × Bool × Bool × KState :=
  if ¬ env.no_crl_check ∨ env.use_ocsp then
    let err := env.dirmngr_isvalid subject_cert issuer_cert env.use_ocsp
    if err ≠ Err.ok then
      match err with
      | Err.certRevoked =>
        (Err.ok, true, any_no_crl, any_crl_too_old,
         { ks with certFlags := (subject_cert, VALIDITY_REVOKED) :: ks.certFlags })
      | Err.noCrlKnown => (Err.ok, any_revoked, true, any_crl_too_old, ks)
      | Err.crlTooOld => (Err.ok, any_revoked, any_no_crl, true, ks)
      | e => (e, any_revoked, any_no_crl, any_crl_too_old, ks)
    else (Err.ok, any_revoked, any_no_crl, any_crl_too_old, ks)
  else (Err.ok, any_revoked, any_no_crl, any_crl_too_old, ks)

/-- The state threaded through one invocation of
`gpgsm_validate_chain`: key state, the five soft-error flags, the
qualified-signature tri-state, the process-wide interactive-prompt
state, the ghost list of signature verifications performed, the
expiration-time accumulator, and the ghost list of the `not_after`
values of visited nodes. -/
structure WalkSt where
  ks : KState
  anyExpired : Bool
  anyRevoked : Bool
  anyNoCrl : Bool
  anyCrlTooOld : Bool
  anyNoPolicyMatch : Bool
  isQ : Int
  noMoreQuestions : Bool
  asked : List Cert
  sig : List (Cert × Cert)
  exptime : String
  visitedNA : List String

/-- The `exptime` accumulator update of the validity section: keep the
earlier (smaller) non-empty not-after; the first non-empty value is
taken unconditionally. -/
def expStep (acc na : String) : String :=
  if na = "" then acc
  else if acc = "" then na
  else if strLt na acc then na
  else acc

/-- Result of processing one chain node. -/
inductive StepRes where
  | fatal (e : Err)
  | completed
  | next (c : Cert)

/-- The "act on the trust check" block for a root: interactive
`marktrusted` recovery for `NOT_TRUSTED`, gated by the expiry flag, the
already-asked set (in list mode) and the session-wide
`no_more_questions` latch. -/
def rootMarktrusted (env : Env) (lm : Bool) (subj : Cert) (ist : Err)
    (w : WalkSt) : Err × WalkSt :=
  if ist = Err.ok then (Err.ok, w)
  else if ist = Err.notTrusted then
    if ¬ w.anyExpired ∧ (¬ lm ∨ ¬ w.asked.contains subj) then
      let rc2 := if w.noMoreQuestions then Err.notSupported else env.marktrusted subj
      let rc := if rc2 = Err.ok then Err.ok else ist
      let w1 :=
        if rc2 = Err.notSupported then { w with noMoreQuestions := true }
        else if rc2 = Err.canceled then { w with noMoreQuestions := true }
        else { w with asked := if w.asked.contains subj then w.asked else subj :: w.asked }
      (rc, w1)
    else (ist, w)
  else (ist, w)

/-- Resolve the qualified-signature flag by consulting the
qualified-list collaborator and caching the answer on the ROOT
(`subject_cert`) user data, ignoring a store error. -/
def rootConsultQualified (env : Env) (subj : Cert) (w : WalkSt) : WalkSt :=
  let e := (env.qualifiedList subj).1
  let isQ : Int := if e = Err.ok then 1 else if e = Err.notFound then 0 else -1
  if isQ ≠ -1 then
    let m := ud_set env w.ks subj kQualified [if isQ = 0 then 0 else 1]
    { w with isQ := isQ, ks := m.2 }
  else w

/-- The CA gate applied to a root, skipped under the `relax` flag
(lines 867–872). -/
def rootCaGate (env : Env) (rcf : RootcaFlags) (subj : Cert) (w : WalkSt) :
    Err × WalkSt :=
  if ¬ rcf.relax then
    let r := allowed_ca env subj w.ks
    (r.1, { w with ks := r.2.2 })
  else (Err.ok, w)

/-- Qualified-signature resolution at the root (lines 875–917): read
the LEAF's cached user data; consult the collaborator on a miss. -/
def rootQualified (env : Env) (leaf subj : Cert) (w : WalkSt) : WalkSt :=
  if w.isQ = -1 then
    match udGet w.ks.ud leaf kQualified with
    | some v =>
      if v ≠ [] then { w with isQ := if v.head! ≠ 0 then 1 else 0 }
      else rootConsultQualified env subj w
    | none => rootConsultQualified env subj w
  else w

/-- The root revocation check (lines 987–1000). -/
def rootCrl (env : Env) (skipRev : Bool) (rcf : RootcaFlags) (subj : Cert)
    (w : WalkSt) : StepRes × WalkSt :=
  if skipRev then (StepRes.completed, w)
  else if env.no_trusted_cert_crl_check ∨ rcf.relax then (StepRes.completed, w)
  else
    let r := is_cert_still_valid env subj subj w.anyRevoked w.anyNoCrl
      w.anyCrlTooOld w.ks
    let w4 := { w with anyRevoked := r.2.1, anyNoCrl := r.2.2.1, anyCrlTooOld := r.2.2.2.1, ks := r.2.2.2.2 }
    if r.1 ≠ Err.ok then (StepRes.fatal r.1, w4)
    else (StepRes.completed, w4)

/-- Root-node processing after the self-signature gate (lines 867–1000,
assembled from `rootCaGate`, `rootQualified`, `rootMarktrusted` and
`rootCrl`, in the source's order). -/
def rootNodeCont (env : Env) (lm skipRev : Bool) (leaf subj : Cert)
    (ist : Err) (rcf : RootcaFlags) (w : WalkSt) : StepRes × WalkSt :=
  let ca := rootCaGate env rcf subj w
  if ca.1 ≠ Err.ok then (StepRes.fatal ca.1, ca.2)
  else
    let t := rootMarktrusted env lm subj ist (rootQualified env leaf subj ca.2)
    if t.1 ≠ Err.ok then (StepRes.fatal t.1, t.2)
    else rootCrl env skipRev rcf subj t.2

/-- Root-node processing (lines 849–1000): the self-signature is
verified only when the trust agent did NOT report the root as trusted;
a bad one fails with `BAD_CERT` at depth 0 and `BAD_CERT_CHAIN`
deeper. -/
def rootNode (env : Env) (lm skipRev : Bool) (leaf subj : Cert) (depth : Nat)
    (ist : Err) (rcf : RootcaFlags) (w : WalkSt) : StepRes × WalkSt :=
  if ist = Err.ok then rootNodeCont env lm skipRev leaf subj ist rcf w
  else
    let w1 := { w with sig := (subj, subj) :: w.sig }
    if env.check_cert_sig subj subj ≠ Err.ok then
      (StepRes.fatal (if depth ≠ 0 then Err.badCertChain else Err.badCert), w1)
    else rootNodeCont env lm skipRev leaf subj ist rcf w1

/-- The `try_another_cert` retry loop: on `BAD_SIGNATURE` ask `find_up`
in `find_next` mode for another certificate with the same issuer DN and
retry, stopping when the candidate is bytewise identical.  `fuel`
bounds the recursion (the cursor advances, so the stores bound the
number of retries). -/
def sigRetry (env : Env) (subj : Cert) (issuer : String) :
    Nat → Cert → KH → KState → List (Cert × Cert) →
    (Err ⊕ Cert) × KH × KState × List (Cert × Cert)
  | 0, _, kh, ks, sg => (Sum.inl Err.badCertChain, kh, ks, sg)
  | fuel + 1, ic, kh, ks, sg =>
    let sg1 := (ic, subj) :: sg
    let rc := env.check_cert_sig ic subj
    if rc = Err.ok then (Sum.inr ic, kh, ks, sg1)
    else if rc = Err.badSignature then
      let r := find_up env kh subj issuer true ks
      if r.1 = Err.ok then
        match r.2.1.current with
        | some tmp =>
          if tmp = ic then (Sum.inl Err.badCertChain, r.2.1, r.2.2, sg1)
          else sigRetry env subj issuer fuel tmp r.2.1 r.2.2 sg1
        | none => (Sum.inl Err.badCertChain, r.2.1, r.2.2, sg1)
      else (Sum.inl Err.badCertChain, r.2.1, r.2.2, sg1)
    else (Sum.inl Err.badCertChain, kh, ks, sg1)

/-- Non-root node processing (lines 1003–1177): depth bound, issuer
resolution, signature check with the rollover retry, CA gate with the
trusted-root relax rescue, pathlen check, key-usage check, and the
per-edge revocation gate.  `depth` is the depth BEFORE the increment at
line 1004. -/
def nonRootNode (env : Env) (lm skipRev : Bool) (subj : Cert) (issuer : String)
    (depth : Nat) (w : WalkSt) : StepRes × WalkSt :=
  if depth + 1 > 50 then (StepRes.fatal Err.badCertChain, w)
  else
    let f := find_up env ⟨false, 0, none⟩ subj issuer false w.ks
    if f.1 ≠ Err.ok then (StepRes.fatal Err.missingCert, { w with ks := f.2.2 })
    else
      match f.2.1.current with
      | none => (StepRes.fatal Err.general, { w with ks := f.2.2 })
      | some ic0 =>
        let fuel := 2 * (f.2.2.stores.main.length + f.2.2.stores.eph.length) + 4
        let sr := sigRetry env subj issuer fuel ic0 f.2.1 f.2.2 w.sig
        let w1 := { w with ks := sr.2.2.1, sig := sr.2.2.2 }
        match sr.1 with
        | Sum.inl e => (StepRes.fatal e, w1)
        | Sum.inr ic =>
          let caR := allowed_ca env ic w1.ks
          let w2 := { w1 with ks := caR.2.2 }
          let resc : Err × Int × Bool × Err × RootcaFlags :=
            if caR.1 ≠ Err.ok then
              if gpgsm_is_root_cert ic then
                let it := env.istrusted ic
                if it.1 = Err.ok ∧ it.2.relax then (Err.ok, -1, true, it.1, it.2)
                else (caR.1, caR.2.1, true, it.1, it.2)
              else (caR.1, caR.2.1, false, Err.m1, ⟨false⟩)
            else (caR.1, caR.2.1, false, Err.m1, ⟨false⟩)
          match resc with
          | (rcB, chainlen, isRoot2, istRc2, rcf2) =>
            if rcB ≠ Err.ok then (StepRes.fatal rcB, w2)
            else if chainlen ≥ 0 ∧ (depth : Int) > chainlen then
              (StepRes.fatal Err.badCertChain, w2)
            else if ¬ lm ∧ env.useCert ic ≠ Err.ok then
              (StepRes.fatal (env.useCert ic), w2)
            else
              let skipEdge :=
                skipRev ∨
                (isRoot2 ∧ (env.no_trusted_cert_crl_check ∨
                  (istRc2 = Err.ok ∧ rcf2.relax)))
              if skipEdge then (StepRes.next ic, w2)
              else
                let r := is_cert_still_valid env subj ic w2.anyRevoked w2.anyNoCrl
                  w2.anyCrlTooOld w2.ks
                let w3 := { w2 with anyRevoked := r.2.1, anyNoCrl := r.2.2.1, anyCrlTooOld := r.2.2.2.1, ks := r.2.2.2.2 }
                if r.1 ≠ Err.ok then (StepRes.fatal r.1, w3)
                else (StepRes.next ic, w3)

/-- Processing of one node of the chain walk: issuer presence, root
detection with the eager trust query, validity window with the
`exptime` accumulator, critical-extension gate, policy gate, then the
root or non-root specific part. -/
def chainStep (env : Env) (lm skipRev : Bool) (leaf subj : Cert) (depth : Nat)
    (w : WalkSt) : StepRes × WalkSt :=
  match subj.issuer with
  | none => (StepRes.fatal Err.badCert, w)
  | some issuer =>
    let is_root := subj.subject = some issuer
    match subj.validity with
    | none => (StepRes.fatal Err.badCert, w)
    | some v =>
      let nb := v.1
      let na := v.2
      let w1 := { w with exptime := expStep w.exptime na, visitedNA := w.visitedNA ++ [na] }
      if nb ≠ "" ∧ strLt env.current_time nb then (StepRes.fatal Err.certTooYoung, w1)
      else
        let w2 :=
          if na ≠ "" ∧ strLt na env.current_time then
            if env.ignore_expiration then w1 else { w1 with anyExpired := true }
          else w1
        let rcC := unknown_criticals subj
        if rcC ≠ Err.ok then (StepRes.fatal rcC, w2)
        else
          let pr := if ¬ env.no_policy_check then check_cert_policy env subj else Err.ok
          if pr ≠ Err.ok ∧ pr ≠ Err.noPolicyMatch then (StepRes.fatal pr, w2)
          else
            let w3 := if pr = Err.noPolicyMatch then { w2 with anyNoPolicyMatch := true } else w2
            if is_root then
              let it := env.istrusted subj
              rootNode env lm skipRev leaf subj depth it.1 it.2 w3
            else nonRootNode env lm skipRev subj issuer depth w3

/-- The chain traversal loop.  `gas` bounds the recursion; since every
continuing step increments `depth` and the depth check fails beyond 50,
a gas of 60 can never be exhausted. -/
def chainLoop (env : Env) (lm skipRev : Bool) (leaf : Cert) :
    Nat → Cert → Nat → WalkSt → Option Err × WalkSt
  | 0, _, _, w => (some (Err.other 991), w)
  | gas + 1, subj, depth, w =>
    match chainStep env lm skipRev leaf subj depth w with
    | (StepRes.fatal e, w1) => (some e, w1)
    | (StepRes.completed, w1) => (none, w1)
    | (StepRes.next c, w1) => chainLoop env lm skipRev leaf gas c (depth + 1) w1

/-- Map the soft flags, in priority order, to the terminal verdict
(lines 1190–1203). -/
def finalVerdict (w : WalkSt) : Err :=
  if w.anyRevoked then Err.certRevoked
  else if w.anyExpired then Err.certExpired
  else if w.anyNoCrl then Err.noCrlKnown
  else if w.anyCrlTooOld then Err.crlTooOld
  else if w.anyNoPolicyMatch then Err.noPolicyMatch
  else Err.ok

/-- Result of `gpgsm_validate_chain`: return code, the `r_exptime`
output, plus ghost outputs — the verdict before the leave-path
qualified write (`rcPre`), whether the walk completed without a fatal
error, and the final state. -/
structure VCResult where
  rc : Err
  exptime : String
  rcPre : Err
  walkCompleted : Bool
  final : WalkSt

/-- Reset of the per-invocation locals of `gpgsm_validate_chain`: the
soft flags, the qualified tri-state, the signature ghost list, the
`exptime` accumulator and the visited ghost list.  Process state
(`noMoreQuestions`, the already-asked set) and the key state carry
over. -/
def resetWalk (w0 : WalkSt) : WalkSt :=
  { w0 with anyExpired := false, anyRevoked := false, anyNoCrl := false, anyCrlTooOld := false, anyNoPolicyMatch := false, isQ := -1, sig := [], exptime := "", visitedNA := [] }

/-- `gpgsm_validate_chain`. -/
def gpgsm_validate_chain (env : Env) (cert : Cert) (listmode skipRev : Bool)
    (w0 : WalkSt) : VCResult :=
  if env.no_chain_validation ∧ ¬ listmode then
    { rc := Err.ok, exptime := "", rcPre := Err.ok, walkCompleted := false, final := resetWalk w0 }
  else
    let r := chainLoop env listmode skipRev cert 60 cert 0 (resetWalk w0)
    let wf := r.2
    let rcPre := match r.1 with | some e => e | none => finalVerdict wf
    if wf.isQ ≠ -1 then
      let m := ud_set env wf.ks cert kQualified [if wf.isQ = 0 then 0 else 1]
      { rc := if m.1 ≠ Err.ok ∧ rcPre = Err.ok then m.1 else rcPre,
        exptime := wf.exptime, rcPre := rcPre, walkCompleted := r.1.isNone,
        final := { wf with ks := m.2 } }
    else
      { rc := rcPre, exptime := wf.exptime, rcPre := rcPre,
        walkCompleted := r.1.isNone, final := wf }

/-- `gpgsm_basic_cert_check`: single-hop check.  The third component is
the ghost list of signature verifications performed. -/
def gpgsm_basic_cert_check (env : Env) (cert : Cert) (ks : KState) :
    Err × KState × List (Cert × Cert) :=
  if env.no_chain_validation then (Err.ok, ks, [])
  else
    match cert.issuer with
    | none => (Err.badCert, ks, [])
    | some issuer =>
      if cert.subject = some issuer then
        if env.check_cert_sig cert cert ≠ Err.ok then (Err.badCert, ks, [(cert, cert)])
        else (Err.ok, ks, [(cert, cert)])
      else
        let f := find_up env ⟨false, 0, none⟩ cert issuer false ks
        if f.1 ≠ Err.ok then (Err.missingCert, f.2.2, [])
        else
          match f.2.1.current with
          | none => (Err.general, f.2.2, [])
          | some ic =>
            if env.check_cert_sig ic cert ≠ Err.ok then (Err.badCert, f.2.2, [(ic, cert)])
            else (Err.ok, f.2.2, [(ic, cert)])

/-! ### Concrete fixtures used by counterexamples and witnesses -/

/-- A distinguished name for node `i` of a synthetic chain. -/
def dn (i : Nat) : String := String.mk ('D' :: (Nat.toDigits 10 i))

/-- Node `i` of a synthetic chain with `n` upward hops: node `n` is the
self-issued root, every node passes all checks (CA flag set, unlimited
pathlen, no extensions, no policies, empty validity timestamps). -/
def chainCert (n i : Nat) : Cert :=
  { issuer := some (dn (min (i + 1) n)), subject := some (dn i), serial := "1",
    validity := some ("", ""), extensions := [], extEnd := Err.eofErr,
    policies := Sum.inl Err.noData, aki := none, ski := none,
    isCaErr := Err.ok, isCaFlag := true, isCaChainlen := -1 }

/-- The main store holding the synthetic chain with `n` hops. -/
def chainMain (n : Nat) : List Cert := (List.range (n + 1)).map (chainCert n)

/-- An environment in which every collaborator succeeds, policy checks
are disabled, CRL checking is disabled, and the trust agent reports
every root as trusted without relax. -/
def okEnv : Env :=
  { no_chain_validation := false, no_policy_check := true, no_crl_check := true,
    no_trusted_cert_crl_check := false, ignore_expiration := false,
    auto_issuer_key_retrieve := false, policy_file_set := false,
    policy_file_content := none, use_ocsp := false, current_time := "",
    istrusted := fun _ => (Err.ok, ⟨false⟩),
    marktrusted := fun _ => Err.ok,
    check_cert_sig := fun _ _ => Err.ok,
    dirmngr_isvalid := fun _ _ _ => Err.ok,
    qualifiedList := fun _ => (Err.notFound, ""),
    useCert := fun _ => Err.ok,
    lookup := fun _ => (Err.ok, []),
    udSetErr := fun _ _ => Err.ok }

/-- Fresh key state over a given main store. -/
def initKS (main : List Cert) : KState := ⟨⟨main, []⟩, [], []⟩

/-- Fresh walk state over a given main store. -/
def initW (main : List Cert) : WalkSt :=
  ⟨initKS main, false, false, false, false, false, -1, false, [], [], "", []⟩

/-- Validation of the synthetic chain with `n` hops, revocation
skipped via the caller flag. -/
def chainRun (n : Nat) : VCResult :=
  gpgsm_validate_chain okEnv (chainCert n 0) false true (initW (chainMain n))

/-- A certificate carrying the policy listing `1.2:N` (one non-critical
policy). -/
def polCert : Cert :=
  { issuer := some "I", subject := some "S", serial := "1",
    validity := some ("", ""), extensions := [], extEnd := Err.eofErr,
    policies := Sum.inr "1.2:N", aki := none, ski := none,
    isCaErr := Err.ok, isCaFlag := true, isCaChainlen := -1 }

/-- `okEnv` with a configured policy file of the given content. -/
def polEnv (content : List Char) : Env :=
  { okEnv with policy_file_set := true, policy_file_content := some content }

/-- A policy-file line of exactly 255 characters (then a newline) whose
OID token matches `polCert`'s listing — the boundary input of C3. -/
def line255 : List Char := '1' :: '.' :: '2' :: List.replicate 252 ' ' ++ ['\n']

/-- A policy-file line of exactly 253 characters (then a newline) whose
OID token matches `polCert`'s listing. -/
def line253 : List Char := '1' :: '.' :: '2' :: List.replicate 250 ' ' ++ ['\n']

/-- A self-issued certificate whose subject and issuer DN are both
`X`, present in the main store — the C6 counterexample input. -/
def selfCert : Cert :=
  { issuer := some "X", subject := some "X", serial := "1",
    validity := some ("", ""), extensions := [], extEnd := Err.eofErr,
    policies := Sum.inl Err.noData, aki := none, ski := none,
    isCaErr := Err.ok, isCaFlag := true, isCaChainlen := -1 }

/-- The issuer DN string of `selfCert`. -/
def dnX : String := "X"

/-- The issuer DN string of `regtpRoot` and `regtpLeaf`. -/
def dnR : String := "R"

/-- A leaf issued by `regtpRoot` but itself not a CA — the C7
counterexample input. -/
def regtpLeaf : Cert :=
  { issuer := some "R", subject := some "L", serial := "1",
    validity := some ("", ""), extensions := [], extEnd := Err.eofErr,
    policies := Sum.inl Err.noData, aki := none, ski := none,
    isCaErr := Err.ok, isCaFlag := false, isCaChainlen := 0 }

/-- A self-issued root with subject DN `R`. -/
def regtpRoot : Cert :=
  { issuer := some "R", subject := some "R", serial := "1",
    validity := some ("", ""), extensions := [], extEnd := Err.eofErr,
    policies := Sum.inl Err.noData, aki := none, ski := none,
    isCaErr := Err.ok, isCaFlag := true, isCaChainlen := -1 }

/-- `okEnv` but with every store of `is_qualified` user data failing —
the C1 counterexample environment. -/
def qualFailEnv : Env :=
  { okEnv with udSetErr := fun _ k => if k = kQualified then Err.other 7 else Err.ok }

/-- Validation of the single trusted root `regtpRoot` under
`qualFailEnv`: the walk completes cleanly but the exit write of
`is_qualified` fails. -/
def qualFailRun : VCResult :=
  gpgsm_validate_chain qualFailEnv regtpRoot false true (initW [regtpRoot])

/-- `okEnv` with chain validation globally disabled. -/
def bypassEnv : Env := { okEnv with no_chain_validation := true }

/-- A trusted self-issued root with a non-empty not-after timestamp. -/
def expRoot : Cert := { regtpRoot with validity := some ("", "20301231T000000") }

/-- `okEnv` with an untrusted root and a bad signature primitive. -/
def untrustedBadSigEnv : Env :=
  { okEnv with istrusted := fun _ => (Err.notTrusted, ⟨false⟩), check_cert_sig := fun _ _ => Err.badSignature }

/-- `okEnv` with CRL checking enabled and a responder reporting every
certificate revoked. -/
def revokedEnv : Env :=
  { okEnv with no_crl_check := false, dirmngr_isvalid := fun _ _ _ => Err.certRevoked }

/-- The unterminated policy line `1.2` (no trailing newline). -/
def untermLine : List Char := ['1', '.', '2']

/-! ### Helper lemmas -/

theorem charsLt_irrefl (l : List Char) : charsLt l l = false := by
  induction l with
  | nil => rfl
  | cons a t ih => simp [charsLt, lt_irrefl, ih]

theorem charsLt_trans (a b c : List Char) (h1 : charsLt a b = true)
    (h2 : charsLt b c = true) : charsLt a c = true := by
  induction a generalizing b c with
  | nil =>
    cases b with
    | nil => simp [charsLt] at h1
    | cons y ys =>
      cases c with
      | nil => simp [charsLt] at h2
      | cons z zs => simp [charsLt]
  | cons x xs ih =>
    cases b with
    | nil => simp [charsLt] at h1
    | cons y ys =>
      cases c with
      | nil => simp [charsLt] at h2
      | cons z zs =>
        simp only [charsLt] at h1 h2 ⊢
        by_cases hxy : x < y
        · by_cases hyz : y < z
          · simp [lt_trans hxy hyz]
          · by_cases hzy : z < y
            · simp [hyz, hzy] at h2
            · have hyz2 : y = z := le_antisymm (not_lt.mp hzy) (not_lt.mp hyz)
              subst hyz2
              simp [hxy]
        · by_cases hyx : y < x
          · simp [hxy, hyx] at h1
          · have hxy2 : x = y := le_antisymm (not_lt.mp hyx) (not_lt.mp hxy)
            subst hxy2
            simp only [lt_irrefl, if_false] at h1
            by_cases hyz : x < z
            · simp [hyz]
            · by_cases hzy : z < x
              · simp [hyz, hzy] at h2
              · have hyz2 : x = z := le_antisymm (not_lt.mp hzy) (not_lt.mp hyz)
                subst hyz2
                simp only [lt_irrefl, if_false] at h2 ⊢
                exact ih ys zs h1 h2

theorem charsLt_eq_of_false (a : List Char) : ∀ b, charsLt a b = false →
    charsLt b a = false → a = b := by
  induction a with
  | nil =>
    intro b h1 h2
    cases b with
    | nil => rfl
    | cons y ys => simp [charsLt] at h1
  | cons x xs ih =>
    intro b h1 h2
    cases b with
    | nil => simp [charsLt] at h2
    | cons y ys =>
      simp only [charsLt] at h1 h2
      by_cases hxy : x < y
      · simp [hxy] at h1
      · by_cases hyx : y < x
        · simp [hyx] at h2
        · have hxy2 : x = y := le_antisymm (not_lt.mp hyx) (not_lt.mp hxy)
          subst hxy2
          simp only [lt_irrefl, if_false] at h1 h2
          rw [ih ys h1 h2]

theorem charsLt_false_trans (a b c : List Char) (h1 : charsLt a b = false)
    (h2 : charsLt b c = false) : charsLt a c = false := by
  cases h : charsLt a c with
  | false => rfl
  | true =>
    exfalso
    cases hba : charsLt b a with
    | true => exact absurd (charsLt_trans b a c hba h) (by simp [h2])
    | false =>
      have hab : a = b := charsLt_eq_of_false a b h1 hba
      subst hab
      exact absurd h (by simp [h2])

theorem strLt_irrefl (s : String) : strLt s s = false := charsLt_irrefl s.data

theorem strLt_trans (a b c : String) (h1 : strLt a b = true)
    (h2 : strLt b c = true) : strLt a c = true :=
  charsLt_trans a.data b.data c.data h1 h2

theorem strLt_false_trans (a b c : String) (h1 : strLt a b = false)
    (h2 : strLt b c = false) : strLt a c = false :=
  charsLt_false_trans a.data b.data c.data h1 h2

theorem fgetsN_eq_take_drop (n : Nat) (xs : List Char) (h : '\n' ∉ xs.take n) :
    fgetsN n xs = (xs.take n, xs.drop n) := by
  induction n generalizing xs with
  | zero => cases xs <;> simp [fgetsN]
  | succ n ih =>
    cases xs with
    | nil => simp [fgetsN]
    | cons c cs =>
      rw [List.take_succ_cons] at h
      simp only [List.mem_cons, not_or] at h
      have hc : ¬ (c = '\n') := fun hh => h.1 hh.symm
      simp [fgetsN, hc, ih cs h.2, List.take_succ_cons, List.drop_succ_cons]

theorem cstr_eq_self (l : List Char) (h : nulChar ∉ l) : cstr l = l := by
  induction l with
  | nil => rfl
  | cons c cs ih =>
    simp only [List.mem_cons, not_or] at h
    have hc : c ≠ nulChar := fun hh => h.1 hh.symm
    have ih' := ih h.2
    simp only [cstr, List.takeWhile_cons] at ih' ⊢
    simp only [hc, decide_not, ih']
    simp
    intro x hx hx2
    exact h.2 (hx2 ▸ hx)

theorem policyLinesGo_overlong (pol : List Char) (ac : Bool) (f : Nat)
    (l rest : List Char) (hlen : 254 ≤ l.length) (hnl : '\n' ∉ l)
    (hnul : nulChar ∉ l) :
    policyLinesGo pol ac (f + 1) (l ++ '\n' :: rest) = Err.lineTooLong := by
  have htake : (l ++ '\n' :: rest).take 254 = l.take 254 :=
    List.take_append_of_le_length hlen
  have hnl' : '\n' ∉ (l ++ '\n' :: rest).take 254 := by
    rw [htake]; exact fun hm => hnl (List.take_subset _ _ hm)
  have hfg := fgetsN_eq_take_drop 254 (l ++ '\n' :: rest) hnl'
  rw [htake] at hfg
  have hnul' : nulChar ∉ l.take 254 := fun hm => hnul (List.take_subset _ _ hm)
  have hcs : cstr (l.take 254) = l.take 254 := cstr_eq_self _ hnul'
  have hne : l.take 254 ≠ [] := by
    intro hh
    rcases List.take_eq_nil_iff.mp hh with h1 | h1
    · exact absurd h1 (by norm_num)
    · rw [h1] at hlen; simp at hlen
  have hlast : (l.take 254).getLast? ≠ some '\n' := by
    intro hh
    exact hnl (List.take_subset _ _ (List.mem_of_mem_getLast? hh))
  cases l with
  | nil => simp at hlen
  | cons c cs =>
    simp only [List.cons_append] at hfg ⊢
    simp only [policyLinesGo, hfg, hcs]
    rw [if_pos (Or.inr hlast), if_pos hne]

theorem policyLinesGo_unterminated (pol : List Char) (ac : Bool) (f : Nat)
    (l : List Char) (hne : l ≠ []) (hnl : '\n' ∉ l) (hnul : nulChar ∉ l) :
    policyLinesGo pol ac (f + 1) l = Err.lineTooLong := by
  have hnl' : '\n' ∉ l.take 254 := fun hm => hnl (List.take_subset _ _ hm)
  have hfg := fgetsN_eq_take_drop 254 l hnl'
  have hnul' : nulChar ∉ l.take 254 := fun hm => hnul (List.take_subset _ _ hm)
  have hcs : cstr (l.take 254) = l.take 254 := cstr_eq_self _ hnul'
  have hne' : l.take 254 ≠ [] := by
    intro hh
    rcases List.take_eq_nil_iff.mp hh with h1 | h1
    · exact absurd h1 (by norm_num)
    · exact hne h1
  have hlast : (l.take 254).getLast? ≠ some '\n' := by
    intro hh
    exact hnl (List.take_subset _ _ (List.mem_of_mem_getLast? hh))
  cases l with
  | nil => exact absurd rfl hne
  | cons c cs =>
    simp only [policyLinesGo, hfg, hcs]
    rw [if_pos (Or.inr hlast), if_pos hne']

theorem fgetsN254_cons_nul (rest : List Char) :
    fgetsN 254 (nulChar :: rest) =
      (nulChar :: (fgetsN 253 rest).1, (fgetsN 253 rest).2) := by
  have h0 : ¬ (nulChar = '\n') := by decide
  show fgetsN (253 + 1) (nulChar :: rest) = _
  simp [fgetsN, h0]

theorem policyLinesGo_nul (pol : List Char) (ac : Bool) (f : Nat)
    (rest : List Char) :
    policyLinesGo pol ac (f + 1) (nulChar :: rest) = Err.incompleteLine := by
  have hc : cstr (nulChar :: (fgetsN 253 rest).1) = [] := by
    simp [cstr, List.takeWhile_cons]
  simp only [policyLinesGo, fgetsN254_cons_nul, hc]
  simp

theorem rootMarktrusted_sig (env : Env) (lm : Bool) (subj : Cert) (ist : Err)
    (w : WalkSt) : (rootMarktrusted env lm subj ist w).2.sig = w.sig := by
  unfold rootMarktrusted
  repeat' split
  all_goals simp only []
  all_goals repeat' split
  all_goals rfl

theorem rootConsultQualified_sig (env : Env) (subj : Cert) (w : WalkSt) :
    (rootConsultQualified env subj w).sig = w.sig := by
  unfold rootConsultQualified
  simp only []
  repeat' split
  all_goals rfl

theorem rootCaGate_sig (env : Env) (rcf : RootcaFlags) (subj : Cert) (w : WalkSt) :
    (rootCaGate env rcf subj w).2.sig = w.sig := by
  unfold rootCaGate
  split <;> rfl

theorem rootQualified_sig (env : Env) (leaf subj : Cert) (w : WalkSt) :
    (rootQualified env leaf subj w).sig = w.sig := by
  unfold rootQualified
  repeat' split
  all_goals simp [rootConsultQualified_sig]

theorem rootCrl_sig (env : Env) (skipRev : Bool) (rcf : RootcaFlags)
    (subj : Cert) (w : WalkSt) :
    (rootCrl env skipRev rcf subj w).2.sig = w.sig := by
  unfold rootCrl
  split
  · rfl
  · split
    · rfl
    · simp only []
      split <;> rfl

theorem rootNodeCont_sig (env : Env) (lm skipRev : Bool) (leaf subj : Cert)
    (ist : Err) (rcf : RootcaFlags) (w : WalkSt) :
    (rootNodeCont env lm skipRev leaf subj ist rcf w).2.sig = w.sig := by
  unfold rootNodeCont
  rcases hca : rootCaGate env rcf subj w with ⟨e1, w1⟩
  have h1 : w1.sig = w.sig := by
    have h := rootCaGate_sig env rcf subj w
    rw [hca] at h
    exact h
  simp only [hca]
  split
  · exact h1
  · rcases hmt : rootMarktrusted env lm subj ist (rootQualified env leaf subj w1) with ⟨e2, w2⟩
    have h2 : w2.sig = w.sig := by
      have h := rootMarktrusted_sig env lm subj ist (rootQualified env leaf subj w1)
      rw [hmt] at h
      rw [h, rootQualified_sig, h1]
    simp only [hmt]
    split
    · exact h2
    · rw [rootCrl_sig, h2]

theorem rootConsultQualified_exp (env : Env) (subj : Cert) (w : WalkSt) :
    (rootConsultQualified env subj w).exptime = w.exptime ∧
    (rootConsultQualified env subj w).visitedNA = w.visitedNA := by
  unfold rootConsultQualified
  simp only []
  repeat' split
  all_goals exact ⟨rfl, rfl⟩

theorem rootMarktrusted_exp (env : Env) (lm : Bool) (subj : Cert) (ist : Err)
    (w : WalkSt) :
    (rootMarktrusted env lm subj ist w).2.exptime = w.exptime ∧
    (rootMarktrusted env lm subj ist w).2.visitedNA = w.visitedNA := by
  unfold rootMarktrusted
  repeat' split
  all_goals simp only []
  all_goals repeat' split
  all_goals simp

theorem rootCaGate_exp (env : Env) (rcf : RootcaFlags) (subj : Cert) (w : WalkSt) :
    (rootCaGate env rcf subj w).2.exptime = w.exptime ∧
    (rootCaGate env rcf subj w).2.visitedNA = w.visitedNA := by
  unfold rootCaGate
  split <;> exact ⟨rfl, rfl⟩

theorem rootQualified_exp (env : Env) (leaf subj : Cert) (w : WalkSt) :
    (rootQualified env leaf subj w).exptime = w.exptime ∧
    (rootQualified env leaf subj w).visitedNA = w.visitedNA := by
  unfold rootQualified
  repeat' split
  all_goals simp [rootConsultQualified_exp]

theorem rootCrl_exp (env : Env) (skipRev : Bool) (rcf : RootcaFlags)
    (subj : Cert) (w : WalkSt) :
    (rootCrl env skipRev rcf subj w).2.exptime = w.exptime ∧
    (rootCrl env skipRev rcf subj w).2.visitedNA = w.visitedNA := by
  unfold rootCrl
  split
  · exact ⟨rfl, rfl⟩
  · split
    · exact ⟨rfl, rfl⟩
    · simp only []
      split <;> exact ⟨rfl, rfl⟩

theorem rootNodeCont_exp (env : Env) (lm skipRev : Bool) (leaf subj : Cert)
    (ist : Err) (rcf : RootcaFlags) (w : WalkSt) :
    (rootNodeCont env lm skipRev leaf subj ist rcf w).2.exptime = w.exptime ∧
    (rootNodeCont env lm skipRev leaf subj ist rcf w).2.visitedNA = w.visitedNA := by
  unfold rootNodeCont
  rcases hca : rootCaGate env rcf subj w with ⟨e1, w1⟩
  have h1 : w1.exptime = w.exptime ∧ w1.visitedNA = w.visitedNA := by
    have h := rootCaGate_exp env rcf subj w
    rw [hca] at h
    exact h
  simp only [hca]
  split
  · exact h1
  · rcases hmt : rootMarktrusted env lm subj ist (rootQualified env leaf subj w1) with ⟨e2, w2⟩
    have h2 : w2.exptime = w.exptime ∧ w2.visitedNA = w.visitedNA := by
      have h := rootMarktrusted_exp env lm subj ist (rootQualified env leaf subj w1)
      rw [hmt] at h
      rcases rootQualified_exp env leaf subj w1 with ⟨hq1, hq2⟩
      exact ⟨h.1.trans (hq1.trans h1.1), h.2.trans (hq2.trans h1.2)⟩
    simp only [hmt]
    split
    · exact h2
    · rcases rootCrl_exp env skipRev rcf subj w2 with ⟨hr1, hr2⟩
      exact ⟨hr1.trans h2.1, hr2.trans h2.2⟩

theorem rootNode_exp (env : Env) (lm skipRev : Bool) (leaf subj : Cert)
    (depth : Nat) (ist : Err) (rcf : RootcaFlags) (w : WalkSt) :
    (rootNode env lm skipRev leaf subj depth ist rcf w).2.exptime = w.exptime ∧
    (rootNode env lm skipRev leaf subj depth ist rcf w).2.visitedNA = w.visitedNA := by
  unfold rootNode
  split
  · exact rootNodeCont_exp env lm skipRev leaf subj ist rcf w
  · simp only []
    split
    · exact ⟨rfl, rfl⟩
    · have h := rootNodeCont_exp env lm skipRev leaf subj ist rcf
        { w with sig := (subj, subj) :: w.sig }
      simpa using h

theorem nonRootNode_exp (env : Env) (lm skipRev : Bool) (subj : Cert)
    (issuer : String) (depth : Nat) (w : WalkSt) :
    (nonRootNode env lm skipRev subj issuer depth w).2.exptime = w.exptime ∧
    (nonRootNode env lm skipRev subj issuer depth w).2.visitedNA = w.visitedNA := by
  unfold nonRootNode
  repeat' split
  all_goals simp only []
  all_goals repeat' split
  all_goals simp

theorem chainStep_exp (env : Env) (lm skipRev : Bool) (leaf subj : Cert)
    (depth : Nat) (w : WalkSt) :
    ∃ l, (chainStep env lm skipRev leaf subj depth w).2.visitedNA = w.visitedNA ++ l ∧
      (chainStep env lm skipRev leaf subj depth w).2.exptime = l.foldl expStep w.exptime := by
  rcases hiss : subj.issuer with _ | issuer
  · exact ⟨[], by simp [chainStep, hiss], by simp [chainStep, hiss]⟩
  · rcases hval : subj.validity with _ | v
    · exact ⟨[], by simp [chainStep, hiss, hval], by simp [chainStep, hiss, hval]⟩
    · refine ⟨[v.2], ?_, ?_⟩ <;>
      · simp only [chainStep, hiss, hval]
        repeat' split
        all_goals simp [rootNode_exp, nonRootNode_exp]

theorem chainLoop_exp (env : Env) (lm skipRev : Bool) (leaf : Cert) :
    ∀ (gas : Nat) (subj : Cert) (depth : Nat) (w : WalkSt),
      ∃ l, (chainLoop env lm skipRev leaf gas subj depth w).2.visitedNA = w.visitedNA ++ l ∧
        (chainLoop env lm skipRev leaf gas subj depth w).2.exptime = l.foldl expStep w.exptime := by
  intro gas
  induction gas with
  | zero =>
    intro subj depth w
    exact ⟨[], by simp [chainLoop], by simp [chainLoop]⟩
  | succ gas ih =>
    intro subj depth w
    obtain ⟨l1, hv1, he1⟩ := chainStep_exp env lm skipRev leaf subj depth w
    rcases hstep : chainStep env lm skipRev leaf subj depth w with ⟨res, w1⟩
    rw [hstep] at hv1 he1
    dsimp only at hv1 he1
    cases res with
    | fatal e =>
      refine ⟨l1, ?_, ?_⟩ <;> simp [chainLoop, hstep, hv1, he1]
    | completed =>
      refine ⟨l1, ?_, ?_⟩ <;> simp [chainLoop, hstep, hv1, he1]
    | next c =>
      obtain ⟨l2, hv2, he2⟩ := ih c (depth + 1) w1
      refine ⟨l1 ++ l2, ?_, ?_⟩
      · simp [chainLoop, hstep, hv2, hv1, List.append_assoc]
      · simp [chainLoop, hstep, he2, he1, List.foldl_append]

theorem expStep_fold_nonempty (l : List String) (acc : String) (hacc : acc ≠ "") :
    (l.foldl expStep acc = acc ∨ l.foldl expStep acc ∈ l) ∧
    strLt acc (l.foldl expStep acc) = false ∧
    (∀ x ∈ l, x ≠ "" → strLt x (l.foldl expStep acc) = false) ∧
    l.foldl expStep acc ≠ "" := by
  induction l generalizing acc with
  | nil => exact ⟨Or.inl rfl, strLt_irrefl acc, by simp, hacc⟩
  | cons a t ih =>
    simp only [List.foldl_cons]
    by_cases ha : a = ""
    · rw [show expStep acc a = acc by simp [expStep, ha]]
      obtain ⟨h1, h2, h3, h4⟩ := ih acc hacc
      refine ⟨?_, h2, ?_, h4⟩
      · rcases h1 with h | h
        · exact Or.inl h
        · exact Or.inr (List.mem_cons_of_mem a h)
      · intro x hx hxne
        rcases List.mem_cons.mp hx with rfl | hx2
        · exact absurd ha hxne
        · exact h3 x hx2 hxne
    · by_cases hlt : strLt a acc = true
      · rw [show expStep acc a = a by simp [expStep, ha, hacc, hlt]]
        obtain ⟨h1, h2, h3, h4⟩ := ih a ha
        refine ⟨?_, ?_, ?_, h4⟩
        · rcases h1 with h | h
          · exact Or.inr (by simp [h])
          · exact Or.inr (List.mem_cons_of_mem a h)
        · cases haf : strLt acc (t.foldl expStep a) with
          | false => rfl
          | true => exact absurd (strLt_trans a acc (t.foldl expStep a) hlt haf) (by simp [h2])
        · intro x hx hxne
          rcases List.mem_cons.mp hx with rfl | hx2
          · exact h2
          · exact h3 x hx2 hxne
      · have hlt2 : strLt a acc = false := by simpa using hlt
        rw [show expStep acc a = acc by simp [expStep, ha, hacc, hlt2]]
        obtain ⟨h1, h2, h3, h4⟩ := ih acc hacc
        refine ⟨?_, h2, ?_, h4⟩
        · rcases h1 with h | h
          · exact Or.inl h
          · exact Or.inr (List.mem_cons_of_mem a h)
        · intro x hx hxne
          rcases List.mem_cons.mp hx with rfl | hx2
          · exact strLt_false_trans x acc (t.foldl expStep acc) hlt2 h2
          · exact h3 x hx2 hxne

theorem expStep_fold_empty (l : List String) :
    (l.foldl expStep "" = "" → ∀ x ∈ l, x = "") ∧
    (l.foldl expStep "" ≠ "" →
      l.foldl expStep "" ∈ l ∧
      ∀ x ∈ l, x ≠ "" → strLt x (l.foldl expStep "") = false) := by
  induction l with
  | nil => simp
  | cons a t ih =>
    simp only [List.foldl_cons]
    by_cases ha : a = ""
    · rw [show expStep "" a = "" by simp [expStep, ha]]
      obtain ⟨h1, h2⟩ := ih
      constructor
      · intro h x hx
        rcases List.mem_cons.mp hx with rfl | hx2
        · exact ha
        · exact h1 h x hx2
      · intro h
        obtain ⟨hm, hb⟩ := h2 h
        refine ⟨List.mem_cons_of_mem a hm, ?_⟩
        intro x hx hxne
        rcases List.mem_cons.mp hx with rfl | hx2
        · exact absurd ha hxne
        · exact hb x hx2 hxne
    · rw [show expStep "" a = a by simp [expStep, ha]]
      obtain ⟨h1, h2, h3, h4⟩ := expStep_fold_nonempty t a ha
      constructor
      · intro h
        exact absurd h h4
      · intro _
        refine ⟨?_, ?_⟩
        · rcases h1 with he | hm
          · rw [he]
            exact List.mem_cons_self a t
          · exact List.mem_cons_of_mem a hm
        · intro x hx hxne
          rcases List.mem_cons.mp hx with rfl | hx2
          · exact h2
          · exact h3 x hx2 hxne

theorem expStep_fold_filter (l : List String) :
    (l.filter (fun s => s ≠ "") = [] → l.foldl expStep "" = "") ∧
    (l.filter (fun s => s ≠ "") ≠ [] →
      l.foldl expStep "" ∈ l.filter (fun s => s ≠ "") ∧
      ∀ x ∈ l.filter (fun s => s ≠ ""), strLt x (l.foldl expStep "") = false) := by
  obtain ⟨h1, h2⟩ := expStep_fold_empty l
  constructor
  · intro hf
    by_contra hne
    obtain ⟨hm, _⟩ := h2 hne
    have hmem : l.foldl expStep "" ∈ l.filter (fun s => s ≠ "") :=
      List.mem_filter.mpr ⟨hm, by simpa using hne⟩
    rw [hf] at hmem
    simp at hmem
  · intro hf
    have hne : l.foldl expStep "" ≠ "" := by
      intro h0
      have hall := h1 h0
      refine hf ?_
      refine List.filter_eq_nil_iff.mpr ?_
      intro a ha
      simp [hall a ha]
    obtain ⟨hm, hb⟩ := h2 hne
    refine ⟨List.mem_filter.mpr ⟨hm, by simpa using hne⟩, ?_⟩
    intro x hx
    obtain ⟨hxl, hxp⟩ := List.mem_filter.mp hx
    exact hb x hxl (by simpa using hxp)

theorem findFromAux_prop (p : Cert → Bool) :
    ∀ (l : List Cert) (i j : Nat) (c : Cert),
      findFromAux p l i = some (j, c) → p c = true := by
  intro l
  induction l with
  | nil =>
    intro i j c h
    simp [findFromAux] at h
  | cons a t ih =>
    intro i j c h
    simp only [findFromAux] at h
    by_cases hp : p a
    · rw [if_pos hp] at h
      simp at h
      rw [← h.2]
      exact hp
    · rw [if_neg hp] at h
      exact ih (i + 1) j c h

theorem kdbSearch_found (p : Cert → Bool) (ks : KState) (kh : KH) :
    (kdbSearch p ks kh).1 = Err.ok →
    ∀ c, (kdbSearch p ks kh).2.current = some c → p c = true := by
  unfold kdbSearch
  cases hf : findFrom p (kh.visible ks) kh.pos with
  | none =>
    intro hok
    simp at hok
  | some ic =>
    rcases ic with ⟨i, c0⟩
    intro _ c hc
    simp only [] at hc
    have hc2 : some c0 = some c := hc
    obtain rfl := Option.some.inj hc2
    exact findFromAux_prop p ((kh.visible ks).drop kh.pos) kh.pos i c0 hf

theorem search_subject_found (ks : KState) (kh : KH) (dn : String) :
    (keydb_search_subject ks kh dn).1 = Err.ok →
    ∀ c, (keydb_search_subject ks kh dn).2.current = some c →
    c.subject = some dn := by
  intro hok c hc
  have h := kdbSearch_found (fun c => c.subject = some dn) ks kh hok c hc
  simpa using h

theorem search_issuer_sn_found (ks : KState) (kh : KH) (s sn : String) :
    (keydb_search_issuer_sn ks kh s sn).1 = Err.ok →
    ∀ c, (keydb_search_issuer_sn ks kh s sn).2.current = some c →
    c.issuer = some s ∧ c.serial = sn := by
  intro hok c hc
  have h := kdbSearch_found (fun c => c.issuer = some s ∧ c.serial = sn) ks kh hok c hc
  simpa using h

theorem byKeyid_found (ks : KState) (kh : KH) (issuer : String) (kid : String) :
    (find_up_search_by_keyid ks kh issuer kid).1 = Err.ok →
    ∀ c, (find_up_search_by_keyid ks kh issuer kid).2.current = some c →
    c.subject = some issuer := by
  intro hok c hc
  have h := kdbSearch_found (fun c => c.subject = some issuer ∧ c.ski = some kid)
    ks (resetKH kh) hok c hc
  have h2 : c.subject = some issuer ∧ c.ski = some kid := by simpa using h
  exact h2.1

theorem fuIssuerSn_found (ks : KState) (kh : KH) (s sn : String) (fn : Bool) :
    (fuIssuerSn ks kh s sn fn).1 = Err.ok →
    ∀ c, (fuIssuerSn ks kh s sn fn).2.current = some c →
    c.issuer = some s ∧ c.serial = sn := by
  intro hok c hc
  unfold fuIssuerSn at hok hc
  dsimp only at hok hc
  split_ifs at hok hc <;>
  (try dsimp only at hok hc) <;>
  first
    | exact search_issuer_sn_found _ _ _ _ hok c hc
    | (refine search_issuer_sn_found _ _ _ _ ?_ c hc
       simp_all
       done)
    | (simp_all
       done)

theorem fuKeyid_found (ks : KState) (kh : KH) (issuer : String) (kid : String) :
    (fuKeyid ks kh issuer kid).1 = Err.ok →
    ∀ c, (fuKeyid ks kh issuer kid).2.current = some c →
    c.subject = some issuer := by
  intro hok c hc
  unfold fuKeyid at hok hc
  dsimp only at hok hc
  split_ifs at hok hc <;>
  (try dsimp only at hok hc) <;>
  first
    | exact byKeyid_found _ _ _ _ hok c hc
    | (refine byKeyid_found _ _ _ _ ?_ c hc
       simp_all
       done)
    | (simp_all
       done)

theorem find_up_external_found (env : Env) (kh : KH) (issuer : String)
    (keyid : Option String) (ks : KState) :
    (find_up_external env kh issuer keyid ks).1 = Err.ok →
    ∀ c, (find_up_external env kh issuer keyid ks).2.1.current = some c →
    c.subject = some issuer := by
  intro hok c hc
  unfold find_up_external at hok hc
  rcases keyid with _ | kid
  all_goals dsimp only at hok hc
  all_goals split_ifs at hok hc <;>
  (try dsimp only at hok hc) <;>
  first
    | exact byKeyid_found _ _ _ _ hok c hc
    | (refine byKeyid_found _ _ _ _ ?_ c hc
       simp_all
       done)
    | exact search_subject_found _ _ _ hok c hc
    | (refine search_subject_found _ _ _ ?_ c hc
       simp_all
       done)
    | (simp_all
       done)

theorem fuAki_found (env : Env) (ks : KState) (kh : KH) (a : AKI)
    (issuer : String) (fn : Bool) :
    (fuAki env ks kh a issuer fn).1 = Err.ok →
    ∀ c, (fuAki env ks kh a issuer fn).2.1.current = some c →
    (c.subject = some issuer ∨
     (∃ s, a.name = some s ∧ c.issuer = some s ∧ c.serial = a.serial)) := by
  intro hok c hc
  unfold fuAki at hok hc
  rcases hn : a.name with _ | s
  all_goals rcases hk : a.keyid with _ | kid
  all_goals rw [hn, hk] at hok hc
  all_goals dsimp only at hok hc
  all_goals split_ifs at hok hc <;>
  (try dsimp only at hok hc) <;>
  first
    | exact Or.inl (find_up_external_found _ _ _ _ _ hok c hc)
    | exact Or.inl (fuKeyid_found _ _ _ _ hok c hc)
    | (refine Or.inl (fuKeyid_found _ _ _ _ ?_ c hc)
       simp_all
       done)
    | exact Or.inr ⟨s, rfl, fuIssuerSn_found _ _ _ _ _ hok c hc⟩
    | (refine Or.inr ⟨s, rfl, fuIssuerSn_found _ _ _ _ _ ?_ c hc⟩
       simp_all
       done)
    | (simp_all
       done)

theorem find_up_found (env : Env) (kh : KH) (cert : Cert) (issuer : String)
    (fn : Bool) (ks : KState) :
    (find_up env kh cert issuer fn ks).1 = Err.ok →
    ∀ c, (find_up env kh cert issuer fn ks).2.1.current = some c →
    (c.subject = some issuer ∨
     (∃ a, cert.aki = some a ∧
       ∃ s, a.name = some s ∧ c.issuer = some s ∧ c.serial = a.serial)) := by
  intro hok c hc
  unfold find_up at hok hc
  rcases ha : cert.aki with _ | a
  all_goals rw [ha] at hok hc
  all_goals dsimp only at hok hc
  all_goals split_ifs at hok hc <;>
  (try dsimp only at hok hc) <;>
  first
    | exact Or.inl (find_up_external_found _ _ _ _ _ hok c hc)
    | exact Or.inl (search_subject_found _ _ _ hok c hc)
    | (refine Or.inl (search_subject_found _ _ _ ?_ c hc)
       simp_all
       done)
    | (simp_all
       done)
    | (rcases fuAki_found _ _ _ _ _ _ hok c hc with h | ⟨s, hns, hi, hsn⟩
       · exact Or.inl h
       · first
         | exact Or.inr ⟨a, rfl, s, hns, hi, hsn⟩
         | exact Or.inr ⟨a, ha, s, hns, hi, hsn⟩)
    | (have hok2 : (fuAki env ks kh a issuer fn).1 = Err.ok := by simp_all
       rcases fuAki_found _ _ _ _ _ _ hok2 c hc with h | ⟨s, hns, hi, hsn⟩
       · exact Or.inl h
       · first
         | exact Or.inr ⟨a, rfl, s, hns, hi, hsn⟩
         | exact Or.inr ⟨a, ha, s, hns, hi, hsn⟩)

theorem find_up_external_ud (env : Env) (kh : KH) (issuer : String)
    (keyid : Option String) (ks : KState) :
    (find_up_external env kh issuer keyid ks).2.2.ud = ks.ud := by
  unfold find_up_external
  dsimp only
  repeat' split
  all_goals rfl

theorem fuAki_ud (env : Env) (ks : KState) (kh : KH) (a : AKI)
    (issuer : String) (fn : Bool) :
    (fuAki env ks kh a issuer fn).2.2.ud = ks.ud := by
  unfold fuAki
  dsimp only
  repeat' split
  all_goals first
    | rfl
    | exact find_up_external_ud _ _ _ _ _

theorem find_up_ud (env : Env) (kh : KH) (cert : Cert) (issuer : String)
    (fn : Bool) (ks : KState) :
    (find_up env kh cert issuer fn ks).2.2.ud = ks.ud := by
  unfold find_up
  dsimp only
  repeat' split
  all_goals first
    | rfl
    | exact fuAki_ud _ _ _ _ _ _
    | exact (find_up_external_ud _ _ _ _ _).trans (fuAki_ud _ _ _ _ _ _)
    | exact find_up_external_ud _ _ _ _ _

theorem walk_ud (env : Env) (c : Cert) (ks : KState) :
    (gpgsm_walk_cert_chain env c ks).2.2.ud = ks.ud := by
  unfold gpgsm_walk_cert_chain
  dsimp only
  repeat' split
  all_goals first
    | rfl
    | exact find_up_ud _ _ _ _ _ _

theorem regtpLoop_ud (env : Env) (fuel : Nat) (cur : Cert) (vis : List Cert)
    (ks : KState) : (regtpLoop env fuel cur vis ks).2.2.ud = ks.ud := by
  induction fuel generalizing cur vis ks with
  | zero => rfl
  | succ n ih =>
    unfold regtpLoop
    dsimp only
    repeat' split
    all_goals first
      | exact (ih _ _ _).trans (walk_ud _ _ _)
      | exact walk_ud _ _ _

theorem regtpLoop_vis (env : Env) (fuel : Nat) (cur : Cert) (vis : List Cert)
    (ks : KState) :
    ∃ l, (regtpLoop env fuel cur vis ks).2.1 = vis ++ l ∧ l.length ≤ fuel := by
  induction fuel generalizing cur vis ks with
  | zero => exact ⟨[], by simp [regtpLoop]⟩
  | succ n ih =>
    unfold regtpLoop
    dsimp only
    repeat' split
    · rename_i nxt _
      obtain ⟨l, hl, hlen⟩ :=
        ih nxt (vis ++ [nxt]) (gpgsm_walk_cert_chain env cur ks).2.2
      exact ⟨[nxt] ++ l, by simp [hl], by simpa using Nat.succ_le_succ hlen⟩
    · exact ⟨[], by simp, by simp⟩
    · exact ⟨[], by simp, by simp⟩

/-! ### Claim theorems -/

/-- C2: depth starts at 0 at the leaf, is incremented once per non-root
node, and the walk fails with `BAD_CERT_CHAIN` exactly when the
incremented depth exceeds `maxdepth = 50`: a chain of 50 upward hops
(51 certificates, i.e. 50 non-root nodes) validates successfully when
every other check passes, and one of 51 hops fails with
`BAD_CERT_CHAIN`. -/
theorem c2_maxdepth_boundary :
    (chainRun 50).rc = Err.ok ∧ (chainRun 50).walkCompleted = true ∧
    (chainRun 51).rc = Err.badCertChain :=
  ⟨rfl, rfl, rfl⟩

/-- C10: when the global `no_chain_validation` option is set,
`gpgsm_basic_cert_check` returns success immediately for every input
certificate and every environment, leaving the key state untouched and
performing no signature verification (empty ghost list) and no issuer
resolution; there is no list-mode condition. -/
theorem c10_basic_check_bypass (env : Env) (cert : Cert) (ks : KState)
    (h : env.no_chain_validation = true) :
    gpgsm_basic_cert_check env cert ks = (Err.ok, ks, []) := by
  unfold gpgsm_basic_cert_check
  simp [h]

/-- Witness for C10 at a concrete input. -/
theorem c10_basic_check_bypass_witness :
    gpgsm_basic_cert_check bypassEnv selfCert (initKS []) = (Err.ok, initKS [], []) :=
  c10_basic_check_bypass bypassEnv selfCert (initKS []) rfl

/-- C4: the revocation gate is skipped (returns 0, touching no flags
and no key state) when CRL checking is disabled and OCSP is not in use;
otherwise it translates the responder result: `CERT_REVOKED` sets
`any_revoked`, records the best-effort `VALIDITY_REVOKED` store for the
subject and returns 0; `NO_CRL_KNOWN` sets `any_no_crl` and returns 0;
`CRL_TOO_OLD` sets `any_crl_too_old` and returns 0; success touches
nothing; every other error is returned unchanged with no flag set. -/
theorem c4_revocation_gate (env : Env) (s i : Cert) (rev nocrl old : Bool)
    (ks : KState) :
    (env.no_crl_check = true ∧ env.use_ocsp = false →
      is_cert_still_valid env s i rev nocrl old ks = (Err.ok, rev, nocrl, old, ks)) ∧
    (env.no_crl_check = false ∨ env.use_ocsp = true →
      (env.dirmngr_isvalid s i env.use_ocsp = Err.certRevoked →
        is_cert_still_valid env s i rev nocrl old ks =
          (Err.ok, true, nocrl, old,
           { ks with certFlags := (s, VALIDITY_REVOKED) :: ks.certFlags })) ∧
      (env.dirmngr_isvalid s i env.use_ocsp = Err.noCrlKnown →
        is_cert_still_valid env s i rev nocrl old ks = (Err.ok, rev, true, old, ks)) ∧
      (env.dirmngr_isvalid s i env.use_ocsp = Err.crlTooOld →
        is_cert_still_valid env s i rev nocrl old ks = (Err.ok, rev, nocrl, true, ks)) ∧
      (env.dirmngr_isvalid s i env.use_ocsp = Err.ok →
        is_cert_still_valid env s i rev nocrl old ks = (Err.ok, rev, nocrl, old, ks)) ∧
      (∀ e, env.dirmngr_isvalid s i env.use_ocsp = e →
        e ≠ Err.ok → e ≠ Err.certRevoked → e ≠ Err.noCrlKnown → e ≠ Err.crlTooOld →
        is_cert_still_valid env s i rev nocrl old ks = (e, rev, nocrl, old, ks))) := by
  constructor
  · rintro ⟨h1, h2⟩
    simp [is_cert_still_valid, h1, h2]
  · intro h
    refine ⟨?_, ?_, ?_, ?_, ?_⟩
    · intro hx; rcases h with h | h
      · simp [is_cert_still_valid, h, hx]
      · rw [h] at hx; simp [is_cert_still_valid, h, hx]
    · intro hx; rcases h with h | h
      · simp [is_cert_still_valid, h, hx]
      · rw [h] at hx; simp [is_cert_still_valid, h, hx]
    · intro hx; rcases h with h | h
      · simp [is_cert_still_valid, h, hx]
      · rw [h] at hx; simp [is_cert_still_valid, h, hx]
    · intro hx; rcases h with h | h
      · simp [is_cert_still_valid, h, hx]
      · rw [h] at hx; simp [is_cert_still_valid, h, hx]
    · intro e he h1 h2 h3 h4
      rcases h with h | h
      · cases e <;> simp_all [is_cert_still_valid, h]
      · rw [h] at he; cases e <;> simp_all [is_cert_still_valid, h]

/-- C3 counterexample: a policy-file line of exactly 255 characters
(`1.2` padded with blanks, then a newline) is NOT accepted — it fails
with `LINE_TOO_LONG`, because `check_cert_policy` passes `DIM(line)-1 =
255` to `fgets`, which therefore reads at most 254 characters; and a
non-empty final line ending at EOF without a newline also fails with
`LINE_TOO_LONG` (not `INCOMPLETE_LINE`, which requires the line to be
empty as a C string).  Had the 255-character line been processed, its
OID token `1.2` would have matched `polCert`'s listing and returned
success. -/
theorem c3_counterexample :
    check_cert_policy (polEnv line255) polCert = Err.lineTooLong ∧
    check_cert_policy (polEnv untermLine) polCert = Err.lineTooLong ∧
    Err.lineTooLong ≠ Err.incompleteLine :=
  ⟨rfl, rfl, fun h => Err.noConfusion h⟩

/-- C3 (amended): in `check_cert_policy`, a line whose content has 254
or more characters (in particular one of exactly 255) fails with
`LINE_TOO_LONG`; a non-empty final line that ends at EOF without a
terminating newline also fails with `LINE_TOO_LONG`; `INCOMPLETE_LINE`
is returned exactly when the line read is empty as a C string (first
byte NUL); and a line of exactly 253 characters is accepted and
processed as a candidate policy line (here: its token matches, so the
check succeeds). -/
theorem c3_line_length_amended :
    (∀ (pol : List Char) (ac : Bool) (f : Nat) (l rest : List Char),
      254 ≤ l.length → '\n' ∉ l → nulChar ∉ l →
      policyLinesGo pol ac (f + 1) (l ++ '\n' :: rest) = Err.lineTooLong) ∧
    (∀ (pol : List Char) (ac : Bool) (f : Nat) (l : List Char),
      l ≠ [] → '\n' ∉ l → nulChar ∉ l →
      policyLinesGo pol ac (f + 1) l = Err.lineTooLong) ∧
    (∀ (pol : List Char) (ac : Bool) (f : Nat) (rest : List Char),
      policyLinesGo pol ac (f + 1) (nulChar :: rest) = Err.incompleteLine) ∧
    check_cert_policy (polEnv line253) polCert = Err.ok :=
  ⟨policyLinesGo_overlong, policyLinesGo_unterminated, policyLinesGo_nul, rfl⟩

/-- C8: in the root-node processing of `gpgsm_validate_chain`, when the
trust agent reports the root as trusted the self-signature is not
verified at all (no `(root, root)` entry is added to the ghost list of
signature verifications); when it does not, the self-signature is
verified, and a bad one fails the chain with `BAD_CERT` at depth 0 and
`BAD_CERT_CHAIN` at depth > 0. -/
theorem c8_root_selfsig (env : Env) (lm skipRev : Bool) (leaf subj : Cert)
    (depth : Nat) (ist : Err) (rcf : RootcaFlags) (w : WalkSt) :
    (ist = Err.ok →
      (rootNode env lm skipRev leaf subj depth ist rcf w).2.sig = w.sig) ∧
    (ist ≠ Err.ok →
      (subj, subj) ∈ (rootNode env lm skipRev leaf subj depth ist rcf w).2.sig ∧
      (env.check_cert_sig subj subj ≠ Err.ok →
        rootNode env lm skipRev leaf subj depth ist rcf w =
          (StepRes.fatal (if depth ≠ 0 then Err.badCertChain else Err.badCert),
           { w with sig := (subj, subj) :: w.sig }))) := by
  constructor
  · intro h
    unfold rootNode
    rw [if_pos h]
    exact rootNodeCont_sig env lm skipRev leaf subj ist rcf w
  · intro h
    constructor
    · unfold rootNode
      rw [if_neg h]
      simp only []
      split
      · simp
      · rw [rootNodeCont_sig]
        simp
    · intro hsig
      unfold rootNode
      rw [if_neg h]
      simp only []
      rw [if_pos hsig]

/-- Witness for C8 at a concrete input: an untrusted root with a bad
self-signature at depth 0 fails with `BAD_CERT`. -/
theorem c8_root_selfsig_witness :
    rootNode untrustedBadSigEnv false true regtpRoot regtpRoot 0 Err.notTrusted
      ⟨false⟩ (initW [regtpRoot]) =
    (StepRes.fatal Err.badCert,
     { (initW [regtpRoot]) with sig := [(regtpRoot, regtpRoot)] }) := by
  have h := ((c8_root_selfsig untrustedBadSigEnv false true regtpRoot regtpRoot 0
    Err.notTrusted ⟨false⟩ (initW [regtpRoot])).2 (by decide)).2 (by decide)
  simpa using h

/-- C1 counterexample: a validation run (single trusted root, every
check passing, all soft flags clear) that completes the chain walk
without a fatal error yet does NOT return the priority mapping of the
soft flags (which would be success): the failing `is_qualified`
user-data write at exit replaces the success verdict. -/
theorem c1_counterexample :
    qualFailRun.walkCompleted = true ∧
    qualFailRun.final.anyRevoked = false ∧
    qualFailRun.final.anyExpired = false ∧
    qualFailRun.final.anyNoCrl = false ∧
    qualFailRun.final.anyCrlTooOld = false ∧
    qualFailRun.final.anyNoPolicyMatch = false ∧
    qualFailRun.rc ≠ Err.ok := by
  decide

/-- C1 (amended): when the chain walk completes without a fatal error,
the verdict computed by `gpgsm_validate_chain` is the soft flags mapped
in strict priority order (revoked > expired > no-crl > crl-too-old >
no-policy-match > success, the third conjunct), and that verdict is
returned — except when it is success, the qualified-signature status
was resolved, and the final `is_qualified` user-data write fails, in
which case the write error is returned instead. -/
theorem c1_verdict_priority_amended (env : Env) (cert : Cert) (lm skipRev : Bool)
    (w0 : WalkSt)
    (h : (gpgsm_validate_chain env cert lm skipRev w0).walkCompleted = true) :
    (gpgsm_validate_chain env cert lm skipRev w0).rcPre =
      finalVerdict (gpgsm_validate_chain env cert lm skipRev w0).final ∧
    (gpgsm_validate_chain env cert lm skipRev w0).rc =
      (if (gpgsm_validate_chain env cert lm skipRev w0).final.isQ ≠ -1 ∧
          env.udSetErr cert kQualified ≠ Err.ok ∧
          finalVerdict (gpgsm_validate_chain env cert lm skipRev w0).final = Err.ok
       then env.udSetErr cert kQualified
       else finalVerdict (gpgsm_validate_chain env cert lm skipRev w0).final) ∧
    (∀ v : WalkSt, finalVerdict v =
      (if v.anyRevoked then Err.certRevoked
       else if v.anyExpired then Err.certExpired
       else if v.anyNoCrl then Err.noCrlKnown
       else if v.anyCrlTooOld then Err.crlTooOld
       else if v.anyNoPolicyMatch then Err.noPolicyMatch
       else Err.ok)) := by
  by_cases hcond : (env.no_chain_validation = true) ∧ ¬ (lm = true)
  · exfalso
    unfold gpgsm_validate_chain at h
    rw [if_pos hcond] at h
    simp at h
  · unfold gpgsm_validate_chain at h ⊢
    rw [if_neg hcond] at h ⊢
    simp only [] at h ⊢
    generalize hgen : chainLoop env lm skipRev cert 60 cert 0 (resetWalk w0) = r at h ⊢
    rcases r with ⟨oe, wf⟩
    dsimp only at h ⊢
    have hoe : oe = none := by
      by_cases hiq : wf.isQ = -1
      · rw [if_neg (by simpa using hiq)] at h
        simpa [Option.isNone_iff_eq_none] using h
      · rw [if_pos (by simpa using hiq)] at h
        simpa [Option.isNone_iff_eq_none] using h
    subst hoe
    dsimp only at h ⊢
    refine ⟨?_, ?_, fun v => rfl⟩
    · by_cases hiq : wf.isQ = -1
      · rw [if_neg (by simpa using hiq)]
      · rw [if_pos (by simpa using hiq)]
        rfl
    · by_cases hiq : wf.isQ = -1
      · rw [if_neg (by simpa using hiq)]
        dsimp only
        rw [if_neg (by simp [hiq])]
      · rw [if_pos (by simpa using hiq)]
        dsimp only
        simp only [ud_set]
        by_cases hud : env.udSetErr cert kQualified = Err.ok
        · rw [if_pos hud, if_neg (by simp [hud])]
          simp [hud, finalVerdict]
        · rw [if_neg hud]
          by_cases hfv : finalVerdict wf = Err.ok
          · rw [if_pos ⟨hud, hfv⟩, if_pos ⟨(by simpa using hiq), hud, hfv⟩]
          · rw [if_neg (by simp [hfv]), if_neg (by simp [hfv])]

/-- Witness for C1 (amended): a clean two-certificate chain returns
success, the priority mapping of its all-clear soft flags. -/
theorem c1_verdict_priority_amended_witness :
    (chainRun 1).rc = Err.ok := by
  have h := c1_verdict_priority_amended okEnv (chainCert 1 0) false true
    (initW (chainMain 1)) (by decide)
  rw [show (chainRun 1).rc = (gpgsm_validate_chain okEnv (chainCert 1 0) false true (initW (chainMain 1))).rc from rfl, h.2.1]
  decide

/-- C5: for every invocation of `gpgsm_validate_chain`, the `exptime`
value stored into `r_exptime` on exit is the minimum — under the
lexicographic (canonical sortable isotime) string order — of the
non-empty `not_after` timestamps of all nodes visited by the walk
(ghost list `visitedNA`), and it is empty when no visited node carries
a non-empty `not_after`.  The first assignment is taken unconditionally
and empty timestamps never affect the accumulator, which is exactly
what the minimum property states. -/
theorem c5_exptime_min (env : Env) (cert : Cert) (lm skipRev : Bool)
    (w0 : WalkSt) :
    ∀ r, r = gpgsm_validate_chain env cert lm skipRev w0 →
      (r.final.visitedNA.filter (fun s => s ≠ "") = [] → r.exptime = "") ∧
      (r.final.visitedNA.filter (fun s => s ≠ "") ≠ [] →
        r.exptime ∈ r.final.visitedNA.filter (fun s => s ≠ "") ∧
        ∀ x ∈ r.final.visitedNA.filter (fun s => s ≠ ""), strLt x r.exptime = false) := by
  intro r hr
  subst hr
  unfold gpgsm_validate_chain
  by_cases hcond : (env.no_chain_validation = true) ∧ ¬ (lm = true)
  · rw [if_pos hcond]
    constructor
    · intro _
      rfl
    · intro h
      exact absurd (by simp [resetWalk]) h
  · rw [if_neg hcond]
    dsimp only
    obtain ⟨l, hv, he⟩ := chainLoop_exp env lm skipRev cert 60 cert 0 (resetWalk w0)
    generalize hgen : chainLoop env lm skipRev cert 60 cert 0 (resetWalk w0) = rr at hv he ⊢
    have hv2 : rr.2.visitedNA = l := by simpa [resetWalk] using hv
    have he2 : rr.2.exptime = l.foldl expStep "" := by simpa [resetWalk] using he
    by_cases hiq : rr.2.isQ = -1
    · rw [if_neg (by simpa using hiq)]
      dsimp only
      rw [hv2, he2]
      exact expStep_fold_filter l
    · rw [if_pos (by simpa using hiq)]
      dsimp only
      rw [hv2, he2]
      exact expStep_fold_filter l

/-- Witness for C5 at a concrete input: a single root with a non-empty
not-after; the returned exptime is among (indeed the minimum of) the
visited non-empty timestamps. -/
theorem c5_exptime_min_witness :
    (gpgsm_validate_chain okEnv expRoot false true (initW [expRoot])).exptime ∈
      (gpgsm_validate_chain okEnv expRoot false true (initW [expRoot])).final.visitedNA.filter
        (fun s => s ≠ "") := by
  have h := c5_exptime_min okEnv expRoot false true (initW [expRoot])
    (gpgsm_validate_chain okEnv expRoot false true (initW [expRoot])) rfl
  exact (h.2 (by decide)).1

/-- C9: in every non-bypassed invocation of `gpgsm_validate_chain` in
which the qualified-signature status was resolved (`isQ ≠ -1`), the
returned code equals the verdict `rcPre` computed by the walk — except
that when `rcPre` is success and the final one-byte `is_qualified`
user-data write to the leaf fails, that write error is returned
instead. -/
theorem c9_qualified_persist (env : Env) (cert : Cert) (lm skipRev : Bool)
    (w0 : WalkSt) (hb : env.no_chain_validation = false ∨ lm = true)
    (hq : (gpgsm_validate_chain env cert lm skipRev w0).final.isQ ≠ -1) :
    (gpgsm_validate_chain env cert lm skipRev w0).rc =
      (if env.udSetErr cert kQualified ≠ Err.ok ∧
          (gpgsm_validate_chain env cert lm skipRev w0).rcPre = Err.ok
       then env.udSetErr cert kQualified
       else (gpgsm_validate_chain env cert lm skipRev w0).rcPre) := by
  have hcond : ¬ ((env.no_chain_validation = true) ∧ ¬ (lm = true)) := by
    rcases hb with h | h <;> simp [h]
  unfold gpgsm_validate_chain at hq ⊢
  rw [if_neg hcond] at hq ⊢
  simp only [] at hq ⊢
  generalize hgen : chainLoop env lm skipRev cert 60 cert 0 (resetWalk w0) = r at hq ⊢
  by_cases hiq : r.2.isQ = -1
  · rw [if_neg (by simpa using hiq)] at hq
    exact absurd hiq (by simpa using hq)
  · rw [if_pos (by simpa using hiq)] at hq ⊢
    simp only [ud_set]
    by_cases hud : env.udSetErr cert kQualified = Err.ok
    · rw [if_pos hud]
      simp [hud]
    · rw [if_neg hud]

/-- Witness for C9 at a concrete input: a clean single-root validation
whose `is_qualified` write fails returns the write error. -/
theorem c9_qualified_persist_witness :
    (gpgsm_validate_chain qualFailEnv regtpRoot false true (initW [regtpRoot])).rc =
      Err.other 7 := by
  have h := c9_qualified_persist qualFailEnv regtpRoot false true
    (initW [regtpRoot]) (Or.inl rfl) (by decide)
  rw [h]
  decide

/-- Witness for C3 (amended) at concrete inputs: the 255-character line
through the first general conjunct. -/
theorem c3_line_length_amended_witness :
    policyLinesGo [] false 10 (List.replicate 255 'a' ++ '\n' :: []) = Err.lineTooLong :=
  c3_line_length_amended.1 [] false 9 (List.replicate 255 'a') []
    (by simp) (by simp) (by decide)

/-- Witness for C4 at a concrete input: a responder returning
`CERT_REVOKED` under an environment with CRL checking enabled. -/
theorem c4_revocation_gate_witness :
    is_cert_still_valid revokedEnv selfCert selfCert false false false (initKS [selfCert]) =
    (Err.ok, true, false, false,
     { (initKS [selfCert]) with certFlags := [(selfCert, VALIDITY_REVOKED)] }) :=
  ((c4_revocation_gate revokedEnv selfCert selfCert false false false
      (initKS [selfCert])).2 (Or.inl rfl)).1 rfl

/-- C6 counterexample: a self-issued certificate whose subject and
issuer are both `X`, alone in the store — `find_up` succeeds and the
cursor is positioned at the input certificate itself. -/
theorem c6_counterexample :
    (find_up okEnv ⟨false, 0, none⟩ selfCert dnX false (initKS [selfCert])).1 =
      Err.ok ∧
    (find_up okEnv ⟨false, 0, none⟩ selfCert dnX false
      (initKS [selfCert])).2.1.current = some selfCert :=
  ⟨rfl, rfl⟩

/-- C6 (amended): when `find_up` returns 0, the certificate under the
cursor has the requested issuer DN as subject or matches the AKI
issuer/serial pair; hence it is never the input certificate provided the
input is not self-issued with respect to the requested DN and does not
match its own AKI issuer-and-serial. -/
theorem c6_find_up_amended (env : Env) (kh : KH) (cert : Cert)
    (issuer : String) (fn : Bool) (ks : KState)
    (hsub : cert.subject ≠ some issuer)
    (haki : ∀ a, cert.aki = some a → ∀ s, a.name = some s →
      ¬ (cert.issuer = some s ∧ cert.serial = a.serial)) :
    (find_up env kh cert issuer fn ks).1 = Err.ok →
    (find_up env kh cert issuer fn ks).2.1.current ≠ some cert := by
  intro hok hc
  rcases find_up_found env kh cert issuer fn ks hok cert hc with
    h | ⟨a, ha, s, hns, hi, hsn⟩
  · exact hsub h
  · exact haki a ha s hns ⟨hi, hsn⟩

theorem c6_find_up_amended_witness :
    regtpLeaf.subject ≠ some dnR ∧
    (find_up okEnv ⟨false, 0, none⟩ regtpLeaf dnR false
      (initKS [regtpLeaf, regtpRoot])).1 = Err.ok ∧
    (find_up okEnv ⟨false, 0, none⟩ regtpLeaf dnR false
      (initKS [regtpLeaf, regtpRoot])).2.1.current ≠ some regtpLeaf :=
  ⟨by decide,
   rfl,
   c6_find_up_amended okEnv ⟨false, 0, none⟩ regtpLeaf dnR false
     (initKS [regtpLeaf, regtpRoot]) (by decide)
     (fun a ha => nomatch ha) rfl⟩

/-- C7 counterexample: a non-RegTP leaf under a non-RegTP root.  The
walk visits both certificates and is not classified as RegTP, yet only
the LAST visited certificate (the root) receives the empty
`regtp_ca_chainlen` marker; the certificate under test gets none. -/
theorem c7_counterexample :
    (get_regtp_ca_info okEnv regtpLeaf (initKS [regtpLeaf, regtpRoot])).2.1 =
      false ∧
    (get_regtp_ca_info okEnv regtpLeaf (initKS [regtpLeaf, regtpRoot])).2.2.1 =
      [regtpLeaf, regtpRoot] ∧
    udGet (get_regtp_ca_info okEnv regtpLeaf
      (initKS [regtpLeaf, regtpRoot])).2.2.2.ud regtpLeaf kRegtp = none ∧
    udGet (get_regtp_ca_info okEnv regtpLeaf
      (initKS [regtpLeaf, regtpRoot])).2.2.2.ud regtpRoot kRegtp = some [0] :=
  ⟨rfl, rfl, rfl, rfl⟩

/-- C7 (amended): on a cache miss, when the walk does not classify the
certificate as RegTP, the visited list starts at the certificate under
test and holds at most 4 certificates, and exactly one empty
`regtp_ca_chainlen` marker is stored — on the LAST visited certificate
only (best-effort: on a store error the user data is unchanged). -/
theorem c7_regtp_marking_amended (env : Env) (cert : Cert) (ks : KState)
    (hmiss : udGet ks.ud cert kRegtp = none)
    (hfalse : (get_regtp_ca_info env cert ks).2.1 = false) :
    (get_regtp_ca_info env cert ks).2.2.1.length ≤ 4 ∧
    (get_regtp_ca_info env cert ks).2.2.1.head? = some cert ∧
    (get_regtp_ca_info env cert ks).2.2.2.ud =
      (if env.udSetErr (get_regtp_ca_info env cert ks).2.2.1.getLast! kRegtp =
          Err.ok
       then ((get_regtp_ca_info env cert ks).2.2.1.getLast!, kRegtp,
              ([0] : List Nat)) :: ks.ud
       else ks.ud) := by
  unfold get_regtp_ca_info at hfalse ⊢
  rw [hmiss] at hfalse ⊢
  dsimp only at hfalse ⊢
  obtain ⟨l, hl, hlen⟩ := regtpLoop_vis env 3 cert [cert] ks
  have hud : (regtpLoop env 3 cert [cert] ks).2.2.ud = ks.ud :=
    regtpLoop_ud env 3 cert [cert] ks
  split_ifs at hfalse ⊢ <;>
    simp_all [ud_set] <;>
    omega

theorem c7_regtp_marking_amended_witness :
    udGet (initKS [regtpLeaf, regtpRoot]).ud regtpLeaf kRegtp = none ∧
    (get_regtp_ca_info okEnv regtpLeaf (initKS [regtpLeaf, regtpRoot])).2.1 =
      false ∧
    ((get_regtp_ca_info okEnv regtpLeaf
        (initKS [regtpLeaf, regtpRoot])).2.2.1.length ≤ 4 ∧
     (get_regtp_ca_info okEnv regtpLeaf
        (initKS [regtpLeaf, regtpRoot])).2.2.1.head? = some regtpLeaf ∧
     (get_regtp_ca_info okEnv regtpLeaf
        (initKS [regtpLeaf, regtpRoot])).2.2.2.ud =
       (if okEnv.udSetErr (get_regtp_ca_info okEnv regtpLeaf
            (initKS [regtpLeaf, regtpRoot])).2.2.1.getLast! kRegtp = Err.ok
        then ((get_regtp_ca_info okEnv regtpLeaf
            (initKS [regtpLeaf, regtpRoot])).2.2.1.getLast!, kRegtp,
            ([0] : List Nat)) :: (initKS [regtpLeaf, regtpRoot]).ud
        else (initKS [regtpLeaf, regtpRoot]).ud)) :=
  ⟨rfl, rfl,
   c7_regtp_marking_amended okEnv regtpLeaf (initKS [regtpLeaf, regtpRoot])
     rfl rfl⟩

end Certchain
